import Mathlib

/-! Maglev: batch sizing, region bounds and HTTP caching.

A shallow embedding of three Go packages of the repository:

* `gtfsdb/config.go`: `Config`, `NewConfig`, `Config.SafeBatchSize`;
* `internal/gtfs/shapes.go`: `ComputeRegionBounds`, `Manager.GetRegionBounds`;
* `internal/restapi/caching_middleware.go`: `CacheControlMiddleware`,
  `cacheControlWriter` and `ETagMiddleware`.

Go `int` is modelled as `Int` restricted to the 64-bit range, with explicit
wrap-around where a product can overflow.  Go `float64` is modelled by `F64`
below: NaN, the two infinities, and the finite doubles as a sign and a
magnitude counted in units of `2^-1074` (the smallest subnormal), with
round-to-nearest-even arithmetic.
-/

/- Literals of the float model are multiples of `2 ^ 1074`. -/
set_option exponentiation.threshold 4096

/-! ## Package gtfsdb -/

namespace gtfsdb

/-- Fallback batch size used when `fieldsPerRow` is unknown or `<= 0`
(`config.go`, line 8). -/
def DefaultBulkInsertBatchSize : Int := 3000

/-- Hard upper bound on bound parameters per SQLite statement
(`config.go`, line 12). -/
def sqliteMaxVariables : Int := 32766

/-- The type `appconf.Environment`; its declaration lives outside the embedded
sources, the three values are the ones the tests use. -/
inductive Environment where
  | Development
  | Test
  | Production
deriving DecidableEq, Repr

/-- The struct `Config` of `config.go`. -/
structure Config where
  DBPath : String
  Env : Environment
  verbose : Bool
  BulkInsertBatchSize : Int
deriving DecidableEq, Repr

/-- The constructor `NewConfig` of `config.go`. -/
def NewConfig (dbPath : String) (env : Environment) (verbose : Bool) : Config :=
  { DBPath := dbPath
    Env := env
    verbose := verbose
    BulkInsertBatchSize := DefaultBulkInsertBatchSize }

/-- The method `Config.SafeBatchSize` of `config.go`.  Go integer division
truncates toward zero, which is `Int.tdiv`. -/
def Config.SafeBatchSize (_c : Config) (fieldsPerRow : Int) : Int :=
  if fieldsPerRow ≤ 0 then
    DefaultBulkInsertBatchSize
  else
    Int.tdiv sqliteMaxVariables fieldsPerRow

/-- The reference definition of the batch size, in the words of the
specification: floor division of the ceiling by the fields per row, and the
fixed default 3000 when the fields per row are not positive. -/
def SafeBatchSizeSpec (fieldsPerRow : Int) : Int :=
  if 0 < fieldsPerRow then Int.fdiv 32766 fieldsPerRow else 3000

/-- The values of a Go `int` on a 64-bit platform. -/
def InInt64 (x : Int) : Prop := -(2 ^ 63) ≤ x ∧ x < 2 ^ 63

instance (x : Int) : Decidable (InInt64 x) := by
  unfold InInt64
  infer_instance

/-- Two's-complement wrap-around of a mathematical integer into 64 bits. -/
def wrapInt64 (x : Int) : Int := (x + 2 ^ 63) % 2 ^ 64 - 2 ^ 63

/-- Go `int` multiplication: the product, wrapped around on overflow. -/
def mulInt64 (a b : Int) : Int := wrapInt64 (a * b)

end gtfsdb

/-! ## Go `float64` -/

/-- The values of a Go `float64` (IEEE 754 binary64).  A finite double is a
sign and a magnitude `n` counted in units of `2^-1074`, so `fin false n` is
`n * 2^-1074` and `fin true 0` is the negative zero.  One NaN stands for all
NaN payloads. -/
inductive F64 where
  | nan : F64
  | inf (neg : Bool) : F64
  | fin (neg : Bool) (n : Nat) : F64
deriving DecidableEq, Repr

namespace F64

/-- The Go constant `0` (positive zero), also the zero value of a `float64`
variable. -/
def zero : F64 := fin false 0

/-- The double of an integer `z` (exact for `|z| < 2^53`). -/
def ofInt (z : Int) : F64 := fin (decide (z < 0)) (z.natAbs * 2 ^ 1074)

/-- Binary search for the position of the leading bit: `f` halving steps on
`n`, the shifts taken so far summed in `acc`. -/
def bitLenAux : Nat → Nat → Nat → Nat
  | 0, _, acc => acc
  | f + 1, n, acc =>
    if 2 ^ (2 ^ f) ≤ n then bitLenAux f (n / 2 ^ (2 ^ f)) (acc + 2 ^ f)
    else bitLenAux f n acc

/-- Number of binary digits of `n` (for `n < 2^4096`). -/
def bitLen (n : Nat) : Nat := if n = 0 then 0 else bitLenAux 12 n 0 + 1

/-- Round a magnitude to 53 significant bits, ties to even. -/
def roundNat (n : Nat) : Nat :=
  let b := bitLen n
  if b ≤ 53 then n
  else
    let k := b - 53
    let q := n / 2 ^ k
    let r := n % 2 ^ k
    let h := 2 ^ (k - 1)
    (if h < r ∨ (r = h ∧ q % 2 = 1) then q + 1 else q) * 2 ^ k

/-- The double nearest to the exact value `± n * 2^-1074`; it overflows to an
infinity from `2^1024` on. -/
def ofMag (neg : Bool) (n : Nat) : F64 :=
  if 2 ^ 2098 ≤ roundNat n then inf neg else fin neg (roundNat n)

/-- Whether a model value is a double: the magnitude of a finite one has at
most 53 significant bits and lies below `2^1024`. -/
def isDouble : F64 → Bool
  | fin _ n => decide (roundNat n = n ∧ n < 2 ^ 2098)
  | _ => true

/-- The signed integer `± n`. -/
def toInt (neg : Bool) (n : Nat) : Int := if neg then -(n : Int) else (n : Int)

/-- Neither NaN nor an infinity. -/
def isFinite : F64 → Bool
  | fin _ _ => true
  | _ => false

/-- One of the two zeros. -/
def isZero : F64 → Bool
  | fin _ n => decide (n = 0)
  | _ => false

/-- Unary minus. -/
def neg : F64 → F64
  | nan => nan
  | inf s => inf (!s)
  | fin s n => fin (!s) n

/-- The Go operator `+` on `float64`. -/
def add : F64 → F64 → F64
  | nan, _ => nan
  | _, nan => nan
  | inf s, inf t => if s = t then inf s else nan
  | inf s, fin _ _ => inf s
  | fin _ _, inf t => inf t
  | fin s a, fin t b =>
    let v := toInt s a + toInt t b
    if v = 0 then fin (s && t) 0 else ofMag (decide (v < 0)) v.natAbs

/-- The Go operator `-` on `float64`. -/
def sub (a b : F64) : F64 := add a (neg b)

/-- Division by the constant 2, `x / 2`: exact, except that an odd magnitude
(a subnormal with its last bit set) is a tie and goes to the even neighbour. -/
def half : F64 → F64
  | nan => nan
  | inf s => inf s
  | fin s n =>
    fin s (if n % 2 = 0 then n / 2 else if (n / 2) % 2 = 1 then n / 2 + 1 else n / 2)

/-- The Go operator `<` on `float64`: false whenever an operand is NaN. -/
def lt : F64 → F64 → Bool
  | nan, _ => false
  | _, nan => false
  | inf s, inf t => s && !t
  | inf s, fin _ _ => s
  | fin _ _, inf t => !t
  | fin s a, fin t b => decide (toInt s a < toInt t b)

/-- The Go operator `>`. -/
def gt (a b : F64) : Bool := lt b a

/-- The Go operator `==` on `float64`: NaN equals nothing, the two zeros are
equal. -/
def eq : F64 → F64 → Bool
  | nan, _ => false
  | _, nan => false
  | inf s, inf t => decide (s = t)
  | inf _, fin _ _ => false
  | fin _ _, inf _ => false
  | fin s a, fin t b => decide (toInt s a = toInt t b)

/-- The Go operator `<=`. -/
def le (a b : F64) : Bool := lt a b || eq a b

/-- The Go operator `>=`. -/
def ge (a b : F64) : Bool := lt b a || eq a b

/-- Identical up to the sign of a zero. -/
def same (a b : F64) : Prop := a = b ∨ (a.isZero = true ∧ b.isZero = true)

instance (a b : F64) : Decidable (same a b) := by
  unfold same
  infer_instance

end F64

/-! ## Package gtfs (internal/gtfs/shapes.go) -/

namespace gtfs

/-- The fields of the library type `gtfs.ShapePoint` read by this package. -/
structure ShapePoint where
  Latitude : F64
  Longitude : F64
deriving DecidableEq, Repr

/-- The library type `gtfs.Shape`. -/
structure Shape where
  ID : String
  Points : List ShapePoint
deriving DecidableEq, Repr

/-- The fields of the library type `gtfs.Stop` read by this package; the two
coordinates are pointers, `none` is the nil pointer. -/
structure Stop where
  Id : String
  Latitude : Option F64
  Longitude : Option F64
deriving DecidableEq, Repr

/-- The struct `RegionBounds`, with the four fields set in `shapes.go`. -/
structure RegionBounds where
  Lat : F64
  Lon : F64
  LatSpan : F64
  LonSpan : F64
deriving DecidableEq, Repr

/-- The local variables of `ComputeRegionBounds`. -/
structure boundsVars where
  minLat : F64
  maxLat : F64
  minLon : F64
  maxLon : F64
  first : Bool
deriving DecidableEq, Repr

/-- The variables as declared: four zero-valued floats and `first := true`
(`shapes.go`, lines 12-13). -/
def boundsVars.init : boundsVars :=
  { minLat := F64.zero, maxLat := F64.zero, minLon := F64.zero, maxLon := F64.zero,
    first := true }

/-- One pass of the loop body on a coordinate pair (`shapes.go`, lines 18-38,
and the same statements at lines 46-66). -/
def boundsVars.visit (v : boundsVars) (lat lon : F64) : boundsVars :=
  if v.first then
    { minLat := lat, maxLat := lat, minLon := lon, maxLon := lon, first := false }
  else
    { minLat := if F64.lt lat v.minLat then lat else v.minLat
      maxLat := if F64.gt lat v.maxLat then lat else v.maxLat
      minLon := if F64.lt lon v.minLon then lon else v.minLon
      maxLon := if F64.gt lon v.maxLon then lon else v.maxLon
      first := false }

/-- The loop body of the stop branch: a stop with a nil coordinate is skipped
(`shapes.go`, lines 43-45). -/
def boundsVars.visitStop (v : boundsVars) (stop : Stop) : boundsVars :=
  match stop.Latitude, stop.Longitude with
  | some lat, some lon => v.visit lat lon
  | _, _ => v

/-- The function `ComputeRegionBounds` of `shapes.go`; `none` is the nil
pointer. -/
def ComputeRegionBounds (shapes : List Shape) (stops : List Stop) : Option RegionBounds :=
  if shapes.length = 0 ∧ stops.length = 0 then
    none
  else
    let v :=
      if shapes.length > 0 then
        shapes.foldl (fun v shape =>
          shape.Points.foldl (fun v point => v.visit point.Latitude point.Longitude) v)
          boundsVars.init
      else
        stops.foldl (fun v stop => v.visitStop stop) boundsVars.init
    some
      { Lat := F64.half (F64.add v.minLat v.maxLat)
        Lon := F64.half (F64.add v.minLon v.maxLon)
        LatSpan := F64.sub v.maxLat v.minLat
        LonSpan := F64.sub v.maxLon v.minLon }

/-- The part of the struct `Manager` read by `GetRegionBounds`; the other
fields, declared outside the embedded sources, are the parameter `others`. -/
structure Manager (σ : Type) where
  regionBounds : Option RegionBounds
  others : σ

/-- The method `Manager.GetRegionBounds` of `shapes.go`.  The receiver is a
pointer, so the manager after the call is returned next to the four results. -/
def Manager.GetRegionBounds {σ : Type} (manager : Manager σ) :
    (F64 × F64 × F64 × F64) × Manager σ :=
  match manager.regionBounds with
  | none => ((F64.zero, F64.zero, F64.zero, F64.zero), manager)
  | some rb => ((rb.Lat, rb.Lon, rb.LatSpan, rb.LonSpan), manager)

/-- All points of all shapes, in iteration order. -/
def allPoints (shapes : List Shape) : List ShapePoint := shapes.flatMap Shape.Points

/-- The coordinate pairs of the stops that have both coordinates. -/
def stopCoords (stops : List Stop) : List ShapePoint :=
  stops.filterMap (fun s =>
    match s.Latitude, s.Longitude with
    | some lat, some lon => some { Latitude := lat, Longitude := lon }
    | _, _ => none)

/-- Whether a stop has both coordinates. -/
def Stop.hasCoords (s : Stop) : Bool := s.Latitude.isSome && s.Longitude.isSome

/-- `m` is the least member of the list under the Go order `<=`. -/
def IsLeastOf (m : F64) (l : List F64) : Prop := m ∈ l ∧ ∀ x ∈ l, F64.le m x = true

/-- `m` is the greatest member of the list under the Go order `<=`. -/
def IsGreatestOf (m : F64) (l : List F64) : Prop := m ∈ l ∧ ∀ x ∈ l, F64.le x m = true

/-- No coordinate of the list is NaN. -/
def NoNaN (l : List F64) : Prop := ∀ x ∈ l, x ≠ F64.nan

/-- Every coordinate of the list is a finite number (neither NaN nor an
infinity). -/
def AllFinite (l : List F64) : Prop := ∀ x ∈ l, x.isFinite = true

/-- The latitudes of a sequence of coordinate pairs. -/
def lats (ps : List ShapePoint) : List F64 := ps.map ShapePoint.Latitude

/-- The longitudes of a sequence of coordinate pairs. -/
def lons (ps : List ShapePoint) : List F64 := ps.map ShapePoint.Longitude

/-- The bounds computed from the extreme coordinates, as in the return
statement of `ComputeRegionBounds` (`shapes.go`, lines 70-75). -/
def boundsOf (minLat maxLat minLon maxLon : F64) : RegionBounds :=
  { Lat := F64.half (F64.add minLat maxLat)
    Lon := F64.half (F64.add minLon maxLon)
    LatSpan := F64.sub maxLat minLat
    LonSpan := F64.sub maxLon minLon }

/-- The value a loop variable ends with when it starts at `a` and is replaced
by each later `x` for which the test `r x m` holds (`r` is `<` for a minimum
variable and `>` for a maximum variable). -/
def selFold (r : F64 → F64 → Bool) (a : F64) (xs : List F64) : F64 :=
  xs.foldl (fun m x => if r x m then x else m) a

/-- The bounds the loop yields on a sequence of coordinate pairs: the
zero-valued variables when there is none, else the folded extremes. -/
def boundsFrom : List ShapePoint → RegionBounds
  | [] => boundsOf F64.zero F64.zero F64.zero F64.zero
  | p :: ps =>
    boundsOf (selFold F64.lt p.Latitude (ps.map ShapePoint.Latitude))
      (selFold F64.gt p.Latitude (ps.map ShapePoint.Latitude))
      (selFold F64.lt p.Longitude (ps.map ShapePoint.Longitude))
      (selFold F64.gt p.Longitude (ps.map ShapePoint.Longitude))

/-- Two results agree: both absent, or both present with fields identical up
to the sign of a zero. -/
def sameBounds : Option RegionBounds → Option RegionBounds → Prop
  | none, none => True
  | some a, some b =>
    F64.same a.Lat b.Lat ∧ F64.same a.Lon b.Lon ∧
      F64.same a.LatSpan b.LatSpan ∧ F64.same a.LonSpan b.LonSpan
  | _, _ => False

instance (a b : Option RegionBounds) : Decidable (sameBounds a b) := by
  cases a <;> cases b <;> unfold sameBounds <;> infer_instance

end gtfs

/-! ## Package restapi (internal/restapi/caching_middleware.go) -/

namespace restapi

/-- The library type `http.Header`, as an association list from header names
to values; the first entry of a name is the one `Get` returns.  Names are kept
as the source writes them (the library maps every name to one canonical
spelling, the same on every access). -/
abbrev Header := List (String × String)

/-- The library method `Header.Get`: the first value of the name, or the
empty string. -/
def Header.Get (h : Header) (key : String) : String :=
  match h.lookup key with
  | some v => v
  | none => ""

/-- The library method `Header.Set`: the name gets the single value. -/
def Header.Set (h : Header) (key value : String) : Header :=
  (key, value) :: h.filter (fun kv => kv.1 ≠ key)

/-- The part of the library type `http.Request` read by this package. -/
structure Request where
  Header : Header
deriving DecidableEq, Repr

/-- The library interface `http.ResponseWriter` on writers with state `W`.
`Header` reads the header map, `HeaderSet` is `w.Header().Set(key, value)`;
the byte count and error returned by `Write` are not modelled. -/
class ResponseWriter (W : Type) where
  Header : W → Header
  HeaderSet : W → String → String → W
  WriteHeader : W → Int → W
  Write : W → List UInt8 → W

/-- The library interface `http.Handler`: `ServeHTTP` runs on whichever
response writer it is given and leaves it in a new state. -/
structure Handler where
  ServeHTTP : {W : Type} → [ResponseWriter W] → W → Request → W

/-- The library constant `http.StatusOK`. -/
def StatusOK : Int := 200

/-- The library constant `http.StatusNotModified`. -/
def StatusNotModified : Int := 304

/-- The response of the library server, as a recorder: the header map, the
status line once committed, the headers as they were at that moment (the ones
sent), and the body. -/
structure responseRecorder where
  header : Header
  wroteHeader : Bool
  Code : Int
  sentHeader : Header
  Body : List UInt8
deriving DecidableEq, Repr

/-- A response on which nothing has been written. -/
def responseRecorder.new : responseRecorder :=
  { header := [], wroteHeader := false, Code := 0, sentHeader := [], Body := [] }

/-- The first `WriteHeader` commits the status with the headers set so far;
a later one is ignored. -/
def responseRecorder.WriteHeader (w : responseRecorder) (code : Int) : responseRecorder :=
  if w.wroteHeader then w
  else { w with wroteHeader := true, Code := code, sentHeader := w.header }

/-- A body write commits status 200 first when no status was written. -/
def responseRecorder.Write (w : responseRecorder) (b : List UInt8) : responseRecorder :=
  let w' := if w.wroteHeader then w else w.WriteHeader StatusOK
  { w' with Body := w'.Body ++ b }

instance : ResponseWriter responseRecorder where
  Header w := w.header
  HeaderSet w key value := { w with header := Header.Set w.header key value }
  WriteHeader := responseRecorder.WriteHeader
  Write := responseRecorder.Write

/-- The struct `cacheControlWriter`, wrapping a response writer with state
`W`. -/
structure cacheControlWriter (W : Type) where
  ResponseWriter : W
  headerValue : String
  headerWritten : Bool

/-- The method `cacheControlWriter.WriteHeader`. -/
def cacheControlWriter.WriteHeader {W : Type} [restapi.ResponseWriter W]
    (w : cacheControlWriter W) (code : Int) : cacheControlWriter W :=
  let w₁ : cacheControlWriter W :=
    if !w.headerWritten then
      if (code ≥ 200 ∧ code < 300) ∨ code = StatusNotModified then
        { w with
          headerWritten := true
          ResponseWriter :=
            restapi.ResponseWriter.HeaderSet w.ResponseWriter "Cache-Control" w.headerValue }
      else
        { w with
          headerWritten := true
          ResponseWriter :=
            restapi.ResponseWriter.HeaderSet w.ResponseWriter "Cache-Control"
              "no-cache, no-store, must-revalidate" }
    else w
  { w₁ with ResponseWriter := restapi.ResponseWriter.WriteHeader w₁.ResponseWriter code }

/-- The method `cacheControlWriter.Write`. -/
def cacheControlWriter.Write {W : Type} [restapi.ResponseWriter W]
    (w : cacheControlWriter W) (b : List UInt8) : cacheControlWriter W :=
  let w₁ := if !w.headerWritten then w.WriteHeader StatusOK else w
  { w₁ with ResponseWriter := restapi.ResponseWriter.Write w₁.ResponseWriter b }

/-- The wrapper is a response writer itself: `Header` is promoted from the
embedded writer, `WriteHeader` and `Write` are the methods above. -/
instance {W : Type} [ResponseWriter W] : ResponseWriter (cacheControlWriter W) where
  Header w := ResponseWriter.Header w.ResponseWriter
  HeaderSet w key value :=
    { w with ResponseWriter := ResponseWriter.HeaderSet w.ResponseWriter key value }
  WriteHeader := cacheControlWriter.WriteHeader
  Write := cacheControlWriter.Write

/-- The header value chosen at the top of `CacheControlMiddleware`
(`caching_middleware.go`, lines 11-16); `toString` on an integer is the
decimal output of `%d`. -/
def cacheHeaderValue (durationSeconds : Int) : String :=
  if durationSeconds > 0 then
    "public, max-age=" ++ toString durationSeconds
  else
    "no-cache, no-store, must-revalidate"

/-- The function `CacheControlMiddleware`. -/
def CacheControlMiddleware (durationSeconds : Int) (next : Handler) : Handler where
  ServeHTTP w r :=
    let wrapped : cacheControlWriter _ :=
      { ResponseWriter := w
        headerValue := cacheHeaderValue durationSeconds
        headerWritten := false }
    (next.ServeHTTP wrapped r).ResponseWriter

/-- The Cache-Control value the specification attaches to a response with
duration `d` and first status `c`: `public, max-age=<d>` for a positive
duration on a 2xx or 304 status, the no-store value in every other case. -/
def cacheControlSpec (d c : Int) : String :=
  if 0 < d ∧ ((200 ≤ c ∧ c < 300) ∨ c = 304) then
    "public, max-age=" ++ toString d
  else
    "no-cache, no-store, must-revalidate"

/-- A handler that only writes the status `code`. -/
def statusHandler (code : Int) : Handler where
  ServeHTTP w _ := ResponseWriter.WriteHeader w code

/-- A handler that only writes the body `b`, without a status. -/
def bodyHandler (b : List UInt8) : Handler where
  ServeHTTP w _ := ResponseWriter.Write w b

end restapi

/-- The library function `unicode.IsSpace` on a code point: the six ASCII
blanks, U+0085, U+00A0 and the code points with the White_Space property. -/
def unicode.IsSpace (c : Char) : Bool :=
  let n := c.toNat
  n == 9 || n == 10 || n == 11 || n == 12 || n == 13 || n == 32 ||
    n == 0x85 || n == 0xA0 || n == 0x1680 || (0x2000 ≤ n && n ≤ 0x200A) ||
    n == 0x2028 || n == 0x2029 || n == 0x202F || n == 0x205F || n == 0x3000

/-- The pieces of a character sequence between the occurrences of `sep`; a
sequence without `sep` is its own single piece, the empty sequence included. -/
def strings.splitChars (sep : Char) : List Char → List (List Char)
  | [] => [[]]
  | c :: cs =>
    if c = sep then [] :: strings.splitChars sep cs
    else
      match strings.splitChars sep cs with
      | [] => [[c]]
      | p :: ps => (c :: p) :: ps

/-- The library function `strings.Split` for a separator of one character,
as in `strings.Split(inm, ",")`. -/
def strings.Split (s : String) (sep : Char) : List String :=
  (strings.splitChars sep s.data).map String.mk

/-- The library function `strings.TrimSpace`: the string without its leading
and trailing white space. -/
def strings.TrimSpace (s : String) : String :=
  String.mk ((s.data.dropWhile unicode.IsSpace).reverse.dropWhile unicode.IsSpace).reverse

namespace restapi

/-- The function `ETagMiddleware`; `getETag` is the closure returning the
current ETag, and the loop over the parts with its early return is `any`. -/
def ETagMiddleware (getETag : Unit → String) (next : Handler) : Handler where
  ServeHTTP w r :=
    let etag := getETag ()
    if etag ≠ "" then
      let inm := Header.Get r.Header "If-None-Match"
      if inm ≠ "" then
        if inm = "*" then
          ResponseWriter.WriteHeader (ResponseWriter.HeaderSet w "ETag" etag) StatusNotModified
        else if (strings.Split inm ',').any (fun part => strings.TrimSpace part == etag) then
          ResponseWriter.WriteHeader (ResponseWriter.HeaderSet w "ETag" etag) StatusNotModified
        else
          next.ServeHTTP (ResponseWriter.HeaderSet w "ETag" etag) r
      else
        next.ServeHTTP (ResponseWriter.HeaderSet w "ETag" etag) r
    else
      next.ServeHTTP w r

/-- The condition of the specification for a conditional request: the
If-None-Match value is exactly `*`, or, split on commas with each value
trimmed of surrounding white space, it contains an entry equal to the ETag. -/
def ifNoneMatchMatches (inm etag : String) : Prop :=
  inm = "*" ∨ ∃ part ∈ strings.Split inm ',', strings.TrimSpace part = etag

instance (inm etag : String) : Decidable (ifNoneMatchMatches inm etag) := by
  unfold ifNoneMatchMatches
  infer_instance

/-- A call on a response writer: `WriteHeader(code)` or `Write(b)`. -/
inductive writerCall where
  | WriteHeader (code : Int)
  | Write (b : List UInt8)
deriving DecidableEq, Repr

/-- The status a call decides when it is the first on a response: its own
code, or 200 for a body write. -/
def writerCall.status : writerCall → Int
  | writerCall.WriteHeader code => code
  | writerCall.Write _ => StatusOK

/-- One call on a response writer. -/
def ResponseWriter.call {W : Type} [ResponseWriter W] (w : W) : writerCall → W
  | writerCall.WriteHeader code => ResponseWriter.WriteHeader w code
  | writerCall.Write b => ResponseWriter.Write w b

/-- A sequence of calls on a response writer, in order. -/
def ResponseWriter.calls {W : Type} [ResponseWriter W] (w : W) (cs : List writerCall) : W :=
  cs.foldl ResponseWriter.call w

/-- A request with the single header `If-None-Match: inm`. -/
def conditionalRequest (inm : String) : Request :=
  { Header := [("If-None-Match", inm)] }

end restapi

/-! ## Theorems: package gtfsdb -/

namespace gtfsdb

theorem SafeBatchSize_pos (c : Config) (f : Int) (h : 0 < f) :
    c.SafeBatchSize f = 32766 / f := by
  unfold Config.SafeBatchSize sqliteMaxVariables
  rw [if_neg (by omega)]
  exact Int.tdiv_eq_ediv (by decide) (le_of_lt h)

theorem SafeBatchSize_nonpos (c : Config) (f : Int) (h : f ≤ 0) :
    c.SafeBatchSize f = 3000 := by
  unfold Config.SafeBatchSize DefaultBulkInsertBatchSize
  rw [if_pos h]

/-- C1: `SafeBatchSize` agrees with its reference definition on every integer:
it is `32766 / fieldsPerRow` (floor division) for positive input and the
default 3000 otherwise; the five examples of the test table are included. -/
theorem C1_SafeBatchSize_eq_spec (c : Config) :
    (∀ f : Int, c.SafeBatchSize f = SafeBatchSizeSpec f) ∧
    (∀ f : Int, c.SafeBatchSize f = if 0 < f then 32766 / f else 3000) ∧
    c.SafeBatchSize 10 = 3276 ∧ c.SafeBatchSize 5 = 6553 ∧
    c.SafeBatchSize 1 = 32766 ∧ c.SafeBatchSize 0 = 3000 ∧
    c.SafeBatchSize (-1) = 3000 := by
  refine ⟨?_, ?_, ?_, ?_, ?_, ?_, ?_⟩
  · intro f
    unfold SafeBatchSizeSpec
    by_cases h : 0 < f
    · rw [if_pos h, SafeBatchSize_pos c f h, Int.fdiv_eq_ediv _ (le_of_lt h)]
    · rw [if_neg h, SafeBatchSize_nonpos c f (by omega)]
  · intro f
    by_cases h : 0 < f
    · rw [if_pos h, SafeBatchSize_pos c f h]
    · rw [if_neg h, SafeBatchSize_nonpos c f (by omega)]
  · rw [SafeBatchSize_pos c 10 (by decide)]; decide
  · rw [SafeBatchSize_pos c 5 (by decide)]; decide
  · rw [SafeBatchSize_pos c 1 (by decide)]; decide
  · exact SafeBatchSize_nonpos c 0 (by decide)
  · exact SafeBatchSize_nonpos c (-1) (by decide)

theorem wrapInt64_of_inRange (x : Int) (h : InInt64 x) : wrapInt64 x = x := by
  unfold InInt64 at h
  unfold wrapInt64
  rw [Int.emod_eq_of_lt (by omega) (by omega)]
  omega

theorem SafeBatchSize_mul_le (c : Config) (f : Int) (h : 0 < f) :
    0 ≤ c.SafeBatchSize f ∧ c.SafeBatchSize f * f ≤ 32766 ∧
      32766 < (c.SafeBatchSize f + 1) * f := by
  rw [SafeBatchSize_pos c f h]
  refine ⟨Int.ediv_nonneg (by decide) (le_of_lt h), Int.ediv_mul_le _ (by omega), ?_⟩
  exact Int.lt_ediv_add_one_mul_self _ h

/-- C2 (counterexample): for the 64-bit value `fieldsPerRow = 11 - 2^61`
the fallback 3000 is returned and the Go product `3000 * fieldsPerRow` wraps
around to 33000, which exceeds 32766.  The largest negative input on which
the product overflows, `-3074457345618259`, gives 9223372036854774616. -/
theorem C2_product_overflow_counterexample :
    InInt64 (-2305843009213693941) ∧
    Config.SafeBatchSize (NewConfig "" Environment.Development false)
        (-2305843009213693941) = 3000 ∧
    mulInt64 (Config.SafeBatchSize (NewConfig "" Environment.Development false)
        (-2305843009213693941)) (-2305843009213693941) = 33000 ∧
    ¬ (mulInt64 (Config.SafeBatchSize (NewConfig "" Environment.Development false)
        (-2305843009213693941)) (-2305843009213693941) ≤ sqliteMaxVariables) ∧
    InInt64 (-3074457345618259) ∧
    mulInt64 (Config.SafeBatchSize (NewConfig "" Environment.Development false)
        (-3074457345618259)) (-3074457345618259) = 9223372036854774616 := by
  decide

/-- C2 (amended): for every 64-bit `fieldsPerRow` that is at least
`-3074457345618258` (every positive value and zero included) the Go product
`result * fieldsPerRow` does not overflow and is at most 32766. -/
theorem C2_product_le_max (c : Config) (f : Int) (hf : InInt64 f)
    (hlow : -3074457345618258 ≤ f) :
    mulInt64 (c.SafeBatchSize f) f = c.SafeBatchSize f * f ∧
    mulInt64 (c.SafeBatchSize f) f ≤ sqliteMaxVariables := by
  unfold InInt64 at hf
  have key : c.SafeBatchSize f * f ≤ 32766 ∧ -(2 ^ 63) ≤ c.SafeBatchSize f * f := by
    by_cases h : 0 < f
    · obtain ⟨h0, h1, _⟩ := SafeBatchSize_mul_le c f h
      refine ⟨h1, ?_⟩
      have : 0 ≤ c.SafeBatchSize f * f := Int.mul_nonneg h0 (le_of_lt h)
      omega
    · rw [SafeBatchSize_nonpos c f (by omega)]
      omega
  have hw : mulInt64 (c.SafeBatchSize f) f = c.SafeBatchSize f * f := by
    unfold mulInt64
    apply wrapInt64_of_inRange
    unfold InInt64
    omega
  refine ⟨hw, ?_⟩
  rw [hw]
  unfold sqliteMaxVariables
  exact key.1

/-- Witness of `C2_product_le_max` at `fieldsPerRow = 10`. -/
theorem C2_product_le_max_witness :
    InInt64 10 ∧ (-3074457345618258 : Int) ≤ 10 ∧
    mulInt64 (Config.SafeBatchSize (NewConfig "gtfs.db" Environment.Test true) 10) 10
        = Config.SafeBatchSize (NewConfig "gtfs.db" Environment.Test true) 10 * 10 ∧
    mulInt64 (Config.SafeBatchSize (NewConfig "gtfs.db" Environment.Test true) 10) 10
        ≤ sqliteMaxVariables :=
  ⟨by decide, by decide,
    C2_product_le_max (NewConfig "gtfs.db" Environment.Test true) 10 (by decide) (by decide)⟩

/-- C3: for every positive `fieldsPerRow` the result `n` is the largest row
count under the ceiling: `n * fieldsPerRow <= 32766`, `(n + 1) * fieldsPerRow >
32766`, and every larger row count exceeds the ceiling as well; for a 64-bit
`fieldsPerRow` the two products do not overflow, so the same holds of the Go
products. -/
theorem C3_SafeBatchSize_maximal (c : Config) (f : Int) (h : 0 < f) :
    c.SafeBatchSize f * f ≤ 32766 ∧
    32766 < (c.SafeBatchSize f + 1) * f ∧
    (∀ m : Int, c.SafeBatchSize f < m → 32766 < m * f) ∧
    (InInt64 f →
      mulInt64 (c.SafeBatchSize f) f ≤ 32766 ∧
      32766 < mulInt64 (c.SafeBatchSize f + 1) f) := by
  obtain ⟨h0, h1, h2⟩ := SafeBatchSize_mul_le c f h
  refine ⟨h1, h2, ?_, ?_⟩
  · intro m hm
    have hle : (c.SafeBatchSize f + 1) * f ≤ m * f :=
      Int.mul_le_mul_of_nonneg_right (by omega) (le_of_lt h)
    omega
  · intro hf
    unfold InInt64 at hf
    have hnf : 0 ≤ c.SafeBatchSize f * f := Int.mul_nonneg h0 (le_of_lt h)
    have hexp : (c.SafeBatchSize f + 1) * f = c.SafeBatchSize f * f + f := by ring
    have hsmall : (c.SafeBatchSize f + 1) * f < 2 ^ 63 := by
      by_cases hn : c.SafeBatchSize f = 0
      · rw [hn]
        omega
      · have hge : 1 * f ≤ c.SafeBatchSize f * f :=
          Int.mul_le_mul_of_nonneg_right (by omega) (le_of_lt h)
        omega
    have e1 : mulInt64 (c.SafeBatchSize f) f = c.SafeBatchSize f * f := by
      unfold mulInt64
      apply wrapInt64_of_inRange
      unfold InInt64
      omega
    have e2 : mulInt64 (c.SafeBatchSize f + 1) f = (c.SafeBatchSize f + 1) * f := by
      unfold mulInt64
      apply wrapInt64_of_inRange
      unfold InInt64
      omega
    rw [e1, e2]
    exact ⟨h1, h2⟩

/-- Witness of `C3_SafeBatchSize_maximal` at `fieldsPerRow = 10`. -/
theorem C3_SafeBatchSize_maximal_witness :
    (0 : Int) < 10 ∧ InInt64 10 ∧
    Config.SafeBatchSize (NewConfig "gtfs.db" Environment.Test true) 10 * 10 ≤ 32766 ∧
    32766 < (Config.SafeBatchSize (NewConfig "gtfs.db" Environment.Test true) 10 + 1) * 10 ∧
    mulInt64 (Config.SafeBatchSize (NewConfig "gtfs.db" Environment.Test true) 10) 10
      ≤ 32766 ∧
    32766 < mulInt64 (Config.SafeBatchSize (NewConfig "gtfs.db" Environment.Test true) 10 + 1)
      10 :=
  have w := C3_SafeBatchSize_maximal (NewConfig "gtfs.db" Environment.Test true) 10 (by decide)
  ⟨by decide, by decide, w.1, w.2.1, (w.2.2.2 (by decide)).1, (w.2.2.2 (by decide)).2⟩

end gtfsdb

/-! ## Theorems: float64 arithmetic and order -/

namespace F64

/-- Sample evaluations of the arithmetic: ties go to the even neighbour at
`2^53`, the largest double doubled overflows, equal operands subtract to `+0`,
two negative zeros add to `-0`, the smallest subnormal halves to zero, and the
two zeros compare equal. -/
theorem arithmetic_samples :
    add (ofInt 9007199254740992) (ofInt 1) = ofInt 9007199254740992 ∧
    add (ofInt 9007199254740992) (ofInt 3) = ofInt 9007199254740996 ∧
    add (fin false ((2 ^ 53 - 1) * 2 ^ 2045)) (fin false ((2 ^ 53 - 1) * 2 ^ 2045)) =
      inf false ∧
    isDouble (fin false ((2 ^ 53 - 1) * 2 ^ 2045)) = true ∧
    isDouble (ofInt 9007199254740993) = false ∧
    sub (ofInt 1) (ofInt 1) = zero ∧
    add (fin true 0) (fin true 0) = fin true 0 ∧
    half (fin false 1) = zero ∧ half (fin false 3) = fin false 2 ∧
    half (ofInt 30) = ofInt 15 ∧
    lt (fin true 0) zero = false ∧ eq (fin true 0) zero = true ∧
    lt nan zero = false ∧ gt nan zero = false ∧ eq nan nan = false := by
  decide

theorem lt_irrefl (a : F64) : lt a a = false := by
  cases a with
  | nan => rfl
  | inf s => cases s <;> rfl
  | fin s n => simp [lt]

theorem lt_trans {a b c : F64} (h₁ : lt a b = true) (h₂ : lt b c = true) :
    lt a c = true := by
  cases a with
  | nan => simp [lt] at h₁
  | inf s =>
    cases b with
    | nan => simp [lt] at h₁
    | inf t =>
      cases c with
      | nan => simp [lt] at h₂
      | inf u => cases s <;> cases t <;> cases u <;> simp_all [lt]
      | fin u k => cases s <;> cases t <;> simp_all [lt]
    | fin t m =>
      cases c with
      | nan => simp [lt] at h₂
      | inf u => cases s <;> cases u <;> simp_all [lt]
      | fin u k => simpa [lt] using h₁
  | fin s n =>
    cases b with
    | nan => simp [lt] at h₁
    | inf t =>
      cases c with
      | nan => simp [lt] at h₂
      | inf u => cases t <;> cases u <;> simp_all [lt]
      | fin u k => cases t <;> simp_all [lt]
    | fin t m =>
      cases c with
      | nan => simp [lt] at h₂
      | inf u => simpa [lt] using h₂
      | fin u k =>
        simp only [lt, decide_eq_true_eq] at h₁ h₂ ⊢
        omega

theorem lt_asymm {a b : F64} (h : lt a b = true) : lt b a = false := by
  cases hb : lt b a with
  | false => rfl
  | true =>
    have := lt_trans h hb
    rw [lt_irrefl] at this
    exact absurd this (by decide)

theorem eq_symm (a b : F64) : eq a b = eq b a := by
  cases a <;> cases b <;> simp [eq, eq_comm]

theorem lt_total {a b : F64} (ha : a ≠ nan) (hb : b ≠ nan) :
    lt a b = true ∨ eq a b = true ∨ lt b a = true := by
  cases a with
  | nan => exact absurd rfl ha
  | inf s =>
    cases b with
    | nan => exact absurd rfl hb
    | inf t => cases s <;> cases t <;> simp [lt, eq]
    | fin t m => cases s <;> simp [lt, eq]
  | fin s n =>
    cases b with
    | nan => exact absurd rfl hb
    | inf t => cases t <;> simp [lt, eq]
    | fin t m =>
      simp only [lt, eq, decide_eq_true_eq]
      omega

theorem toInt_eq_iff (s t : Bool) (a b : Nat) :
    toInt s a = toInt t b ↔ (a = b ∧ (s = t ∨ a = 0)) := by
  unfold toInt
  cases s <;> cases t <;> simp <;> omega

theorem same_of_eq {a b : F64} (h : eq a b = true) : same a b := by
  cases a with
  | nan => simp [eq] at h
  | inf s =>
    cases b with
    | nan => simp [eq] at h
    | inf t =>
      simp only [eq, decide_eq_true_eq] at h
      exact Or.inl (by rw [h])
    | fin t m => simp [eq] at h
  | fin s n =>
    cases b with
    | nan => simp [eq] at h
    | inf t => simp [eq] at h
    | fin t m =>
      simp only [eq, decide_eq_true_eq] at h
      rw [toInt_eq_iff] at h
      obtain ⟨h1, h2⟩ := h
      subst h1
      rcases h2 with h2 | h2
      · exact Or.inl (by rw [h2])
      · subst h2
        exact Or.inr ⟨by simp [isZero], by simp [isZero]⟩

theorem same_of_le_le {a b : F64} (h₁ : le a b = true) (h₂ : le b a = true) :
    same a b := by
  unfold le at h₁ h₂
  rw [Bool.or_eq_true] at h₁ h₂
  rcases h₁ with h₁ | h₁
  · rcases h₂ with h₂ | h₂
    · rw [lt_asymm h₁] at h₂
      exact absurd h₂ (by decide)
    · rw [eq_symm] at h₂
      exact same_of_eq h₂
  · exact same_of_eq h₁

theorem le_of_not_lt {a b : F64} (ha : a ≠ nan) (hb : b ≠ nan) (h : lt b a = false) :
    le a b = true := by
  unfold le
  rcases lt_total ha hb with h' | h' | h'
  · simp [h']
  · simp [h']
  · rw [h] at h'
    exact absurd h' (by decide)

theorem toInt_zero (s : Bool) : toInt s 0 = 0 := by
  cases s <;> simp [toInt]

theorem toInt_not (s : Bool) (n : Nat) : toInt (!s) n = -toInt s n := by
  cases s <;> simp [toInt]

theorem isZero_iff (a : F64) : a.isZero = true ↔ ∃ s, a = fin s 0 := by
  cases a with
  | nan => simp [isZero]
  | inf s => simp [isZero]
  | fin s n =>
    simp only [isZero, decide_eq_true_eq]
    constructor
    · intro h
      exact ⟨s, by rw [h]⟩
    · rintro ⟨t, h⟩
      injection h with _ h2

theorem same_refl (a : F64) : same a a := Or.inl rfl

theorem same_symm {a b : F64} (h : same a b) : same b a := by
  rcases h with h | ⟨h1, h2⟩
  · exact Or.inl h.symm
  · exact Or.inr ⟨h2, h1⟩

theorem same_trans {a b c : F64} (h₁ : same a b) (h₂ : same b c) : same a c := by
  rcases h₁ with h₁ | ⟨h1, h2⟩
  · rw [h₁]
    exact h₂
  · rcases h₂ with h₂ | ⟨_, h4⟩
    · rw [← h₂]
      exact Or.inr ⟨h1, h2⟩
    · exact Or.inr ⟨h1, h4⟩

theorem add_comm (a b : F64) : add a b = add b a := by
  cases a with
  | nan => cases b <;> rfl
  | inf s =>
    cases b with
    | nan => rfl
    | inf t => cases s <;> cases t <;> rfl
    | fin t m => rfl
  | fin s n =>
    cases b with
    | nan => rfl
    | inf t => rfl
    | fin t m =>
      simp only [add]
      rw [Int.add_comm (toInt t m) (toInt s n), Bool.and_comm t s]

theorem add_zero_congr (s t : Bool) (b : F64) :
    same (add (fin s 0) b) (add (fin t 0) b) := by
  cases b with
  | nan => exact Or.inl rfl
  | inf u => exact Or.inl rfl
  | fin u m =>
    simp only [add, toInt_zero]
    by_cases h : (0 : Int) + toInt u m = 0
    · rw [if_pos h, if_pos h]
      exact Or.inr ⟨by simp [isZero], by simp [isZero]⟩
    · rw [if_neg h, if_neg h]
      exact Or.inl rfl

theorem same_add_left {a a' : F64} (h : same a a') (b : F64) :
    same (add a b) (add a' b) := by
  rcases h with h | ⟨h1, h2⟩
  · rw [h]
    exact same_refl _
  · obtain ⟨s, hs⟩ := (isZero_iff a).1 h1
    obtain ⟨t, ht⟩ := (isZero_iff a').1 h2
    rw [hs, ht]
    exact add_zero_congr s t b

theorem same_add {a a' b b' : F64} (ha : same a a') (hb : same b b') :
    same (add a b) (add a' b') := by
  refine same_trans (same_add_left ha b) ?_
  rw [add_comm a' b, add_comm a' b']
  exact same_add_left hb a'

theorem same_neg {a a' : F64} (h : same a a') : same (neg a) (neg a') := by
  rcases h with h | ⟨h1, h2⟩
  · rw [h]
    exact same_refl _
  · obtain ⟨s, hs⟩ := (isZero_iff a).1 h1
    obtain ⟨t, ht⟩ := (isZero_iff a').1 h2
    rw [hs, ht]
    exact Or.inr ⟨by simp [neg, isZero], by simp [neg, isZero]⟩

theorem same_sub {a a' b b' : F64} (ha : same a a') (hb : same b b') :
    same (sub a b) (sub a' b') :=
  same_add ha (same_neg hb)

theorem same_half {a a' : F64} (h : same a a') : same (half a) (half a') := by
  rcases h with h | ⟨h1, h2⟩
  · rw [h]
    exact same_refl _
  · obtain ⟨s, hs⟩ := (isZero_iff a).1 h1
    obtain ⟨t, ht⟩ := (isZero_iff a').1 h2
    rw [hs, ht]
    exact Or.inr ⟨by simp [half, isZero], by simp [half, isZero]⟩

theorem ge_zero_of_fin (s : Bool) : ge (fin s 0) zero = true := by
  simp [ge, lt, eq, zero, toInt_zero]

theorem ge_zero_ofMag (n : Nat) : ge (ofMag false n) zero = true := by
  unfold ofMag
  split
  · simp [ge, lt, zero]
  · simp only [ge, lt, eq, zero, toInt, Bool.or_eq_true, decide_eq_true_eq]
    simp only [Bool.false_eq_true, if_false]
    omega

theorem sub_ge_zero {a b : F64} (ha : a.isFinite = true) (hb : b.isFinite = true)
    (h : le a b = true) : ge (sub b a) zero = true := by
  cases a with
  | nan => simp [isFinite] at ha
  | inf s => simp [isFinite] at ha
  | fin s n =>
    cases b with
    | nan => simp [isFinite] at hb
    | inf t => simp [isFinite] at hb
    | fin t m =>
      simp only [le, lt, eq, Bool.or_eq_true, decide_eq_true_eq] at h
      simp only [sub, neg, add, toInt_not]
      by_cases hv : toInt t m + -toInt s n = 0
      · rw [if_pos hv]
        exact ge_zero_of_fin _
      · rw [if_neg hv]
        have hlt : ¬ (toInt t m + -toInt s n < 0) := by omega
        rw [decide_eq_false hlt]
        exact ge_zero_ofMag _

end F64

/-! ## Theorems: package gtfs -/

namespace gtfs

theorem selFold_cons (r : F64 → F64 → Bool) (a x : F64) (xs : List F64) :
    selFold r a (x :: xs) = selFold r (if r x a then x else a) xs := rfl

theorem selFold_mem (r : F64 → F64 → Bool) (a : F64) (xs : List F64) :
    selFold r a xs ∈ a :: xs := by
  induction xs generalizing a with
  | nil => simp [selFold]
  | cons x xs ih =>
    rw [selFold_cons]
    have h := ih (if r x a then x else a)
    rw [List.mem_cons] at h
    rcases h with h | h
    · rw [h]
      split
      · simp
      · simp
    · exact List.mem_cons_of_mem _ (List.mem_cons_of_mem _ h)

theorem selFold_init (r : F64 → F64 → Bool)
    (htrans : ∀ a b c, r a b = true → r b c = true → r a c = true)
    (a : F64) (xs : List F64) :
    selFold r a xs = a ∨ r (selFold r a xs) a = true := by
  induction xs generalizing a with
  | nil => exact Or.inl rfl
  | cons x xs ih =>
    rw [selFold_cons]
    by_cases hx : r x a = true
    · rw [if_pos hx]
      rcases ih x with h | h
      · rw [h]
        exact Or.inr hx
      · exact Or.inr (htrans _ _ _ h hx)
    · rw [if_neg hx]
      exact ih a

theorem selFold_extreme (r : F64 → F64 → Bool)
    (hirr : ∀ a, r a a = false)
    (htrans : ∀ a b c, r a b = true → r b c = true → r a c = true)
    (a : F64) (xs : List F64) :
    ∀ x ∈ a :: xs, r x (selFold r a xs) = false := by
  have key : ∀ (m y : F64) (ys : List F64), r y m = false →
      r y (selFold r m ys) = false := by
    intro m y ys hy
    rcases selFold_init r htrans m ys with h | h
    · rw [h]
      exact hy
    · cases hc : r y (selFold r m ys) with
      | false => rfl
      | true =>
        have := htrans _ _ _ hc h
        rw [hy] at this
        exact absurd this (by decide)
  induction xs generalizing a with
  | nil =>
    intro x hx
    simp only [List.mem_singleton] at hx
    subst hx
    exact hirr _
  | cons y ys ih =>
    intro x hx
    rw [selFold_cons]
    rw [List.mem_cons, List.mem_cons] at hx
    by_cases hy : r y a = true
    · rw [if_pos hy]
      rcases hx with hx | hx | hx
      · subst hx
        apply key
        cases hc : r x y with
        | false => rfl
        | true =>
          have := htrans _ _ _ hc hy
          rw [hirr] at this
          exact absurd this (by decide)
      · subst hx
        exact ih x x (List.mem_cons_self _ _)
      · exact ih y x (List.mem_cons_of_mem _ hx)
    · rw [if_neg hy]
      rcases hx with hx | hx | hx
      · subst hx
        exact ih x x (List.mem_cons_self _ _)
      · subst hx
        apply key
        simpa using hy
      · exact ih a x (List.mem_cons_of_mem _ hx)

theorem gt_irrefl (a : F64) : F64.gt a a = false := F64.lt_irrefl a

theorem gt_trans (a b c : F64) (h₁ : F64.gt a b = true) (h₂ : F64.gt b c = true) :
    F64.gt a c = true := F64.lt_trans h₂ h₁

theorem foldl_visit (ps : List ShapePoint) (a b c d : F64) :
    ps.foldl (fun (v : boundsVars) (point : ShapePoint) =>
          v.visit point.Latitude point.Longitude)
        { minLat := a, maxLat := b, minLon := c, maxLon := d, first := false } =
      ({ minLat := selFold F64.lt a (ps.map ShapePoint.Latitude)
         maxLat := selFold F64.gt b (ps.map ShapePoint.Latitude)
         minLon := selFold F64.lt c (ps.map ShapePoint.Longitude)
         maxLon := selFold F64.gt d (ps.map ShapePoint.Longitude)
         first := false } : boundsVars) := by
  induction ps generalizing a b c d with
  | nil => rfl
  | cons p ps ih =>
    simp only [List.foldl_cons, List.map_cons, selFold_cons]
    rw [← ih]
    rfl

theorem foldl_visit_init (ps : List ShapePoint) :
    (fun v : boundsVars => boundsOf v.minLat v.maxLat v.minLon v.maxLon)
      (ps.foldl (fun (v : boundsVars) (point : ShapePoint) =>
          v.visit point.Latitude point.Longitude) boundsVars.init) =
      boundsFrom ps := by
  cases ps with
  | nil => rfl
  | cons p ps =>
    simp only [List.foldl_cons]
    have h : boundsVars.init.visit p.Latitude p.Longitude =
        { minLat := p.Latitude, maxLat := p.Latitude, minLon := p.Longitude,
          maxLon := p.Longitude, first := false } := rfl
    rw [h, foldl_visit]
    rfl

theorem foldl_shapes (shapes : List Shape) (v : boundsVars) :
    shapes.foldl (fun v shape =>
        shape.Points.foldl (fun v point => v.visit point.Latitude point.Longitude) v) v =
      (allPoints shapes).foldl (fun (v : boundsVars) (point : ShapePoint) =>
          v.visit point.Latitude point.Longitude) v := by
  induction shapes generalizing v with
  | nil => rfl
  | cons s ss ih =>
    simp only [List.foldl_cons, allPoints, List.flatMap_cons, List.foldl_append]
    exact ih _

theorem foldl_stops (stops : List Stop) (v : boundsVars) :
    stops.foldl (fun v stop => v.visitStop stop) v =
      (stopCoords stops).foldl (fun (v : boundsVars) (point : ShapePoint) =>
          v.visit point.Latitude point.Longitude) v := by
  induction stops generalizing v with
  | nil => rfl
  | cons s ss ih =>
    obtain ⟨id, la, lo⟩ := s
    cases la with
    | none =>
      simp only [List.foldl_cons, stopCoords, List.filterMap_cons, boundsVars.visitStop]
      exact ih _
    | some la =>
      cases lo with
      | none =>
        simp only [List.foldl_cons, stopCoords, List.filterMap_cons, boundsVars.visitStop]
        exact ih _
      | some lo =>
        simp only [List.foldl_cons, stopCoords, List.filterMap_cons, boundsVars.visitStop]
        exact ih _

/-- What `ComputeRegionBounds` returns, in terms of the coordinate pairs it
visits. -/
theorem ComputeRegionBounds_eq (shapes : List Shape) (stops : List Stop) :
    ComputeRegionBounds shapes stops =
      if shapes = [] ∧ stops = [] then none
      else some (boundsFrom (if shapes = [] then stopCoords stops else allPoints shapes)) := by
  unfold ComputeRegionBounds
  simp only [List.length_eq_zero]
  by_cases h : shapes = [] ∧ stops = []
  · rw [if_pos h, if_pos h]
  · rw [if_neg h, if_neg h]
    by_cases hs : shapes = []
    · have hl : ¬ (shapes.length > 0) := by simp [hs]
      simp only [if_neg hl, if_pos hs]
      rw [foldl_stops]
      exact congrArg some (foldl_visit_init _)
    · have hl : shapes.length > 0 := List.length_pos.2 hs
      simp only [if_pos hl, if_neg hs]
      rw [foldl_shapes]
      exact congrArg some (foldl_visit_init _)

/-- The minimum variable ends on a member that no member is below. -/
theorem selFold_lt_spec (a : F64) (xs : List F64) :
    selFold F64.lt a xs ∈ a :: xs ∧
      ∀ x ∈ a :: xs, F64.lt x (selFold F64.lt a xs) = false :=
  ⟨selFold_mem _ a xs,
    selFold_extreme F64.lt F64.lt_irrefl (fun _ _ _ h₁ h₂ => F64.lt_trans h₁ h₂) a xs⟩

/-- The maximum variable ends on a member that no member is above. -/
theorem selFold_gt_spec (a : F64) (xs : List F64) :
    selFold F64.gt a xs ∈ a :: xs ∧
      ∀ x ∈ a :: xs, F64.gt x (selFold F64.gt a xs) = false :=
  ⟨selFold_mem _ a xs, selFold_extreme F64.gt gt_irrefl gt_trans a xs⟩

/-- Without NaN the minimum variable ends on the least member. -/
theorem selFold_least (a : F64) (xs : List F64) (hn : NoNaN (a :: xs)) :
    IsLeastOf (selFold F64.lt a xs) (a :: xs) :=
  ⟨(selFold_lt_spec a xs).1, fun x hx =>
    F64.le_of_not_lt (hn _ (selFold_lt_spec a xs).1) (hn x hx)
      ((selFold_lt_spec a xs).2 x hx)⟩

/-- Without NaN the maximum variable ends on the greatest member. -/
theorem selFold_greatest (a : F64) (xs : List F64) (hn : NoNaN (a :: xs)) :
    IsGreatestOf (selFold F64.gt a xs) (a :: xs) :=
  ⟨(selFold_gt_spec a xs).1, fun x hx =>
    F64.le_of_not_lt (hn x hx) (hn _ (selFold_gt_spec a xs).1)
      ((selFold_gt_spec a xs).2 x hx)⟩

/-- On an axis without NaN, the bounds of a non-empty sequence of coordinate
pairs are computed from the least and the greatest coordinate. -/
theorem boundsFrom_axes (ps : List ShapePoint) (h : ps ≠ []) :
    (NoNaN (lats ps) →
      ∃ minLat maxLat : F64,
        IsLeastOf minLat (lats ps) ∧ IsGreatestOf maxLat (lats ps) ∧
        (boundsFrom ps).Lat = F64.half (F64.add minLat maxLat) ∧
        (boundsFrom ps).LatSpan = F64.sub maxLat minLat) ∧
    (NoNaN (lons ps) →
      ∃ minLon maxLon : F64,
        IsLeastOf minLon (lons ps) ∧ IsGreatestOf maxLon (lons ps) ∧
        (boundsFrom ps).Lon = F64.half (F64.add minLon maxLon) ∧
        (boundsFrom ps).LonSpan = F64.sub maxLon minLon) := by
  cases ps with
  | nil => exact absurd rfl h
  | cons p ps =>
    exact ⟨fun hn => ⟨_, _, selFold_least _ _ hn, selFold_greatest _ _ hn, rfl, rfl⟩,
      fun hn => ⟨_, _, selFold_least _ _ hn, selFold_greatest _ _ hn, rfl, rfl⟩⟩

theorem not_isLeastOf_nan (m : F64) (l : List F64) (h : F64.nan ∈ l) : ¬ IsLeastOf m l := by
  intro hl
  have := hl.2 F64.nan h
  cases m <;> simp [F64.le, F64.lt, F64.eq] at this

theorem stopCoords_ne_nil (stops : List Stop) (h : ∃ s ∈ stops, s.hasCoords = true) :
    stopCoords stops ≠ [] := by
  obtain ⟨s, hs, hc⟩ := h
  obtain ⟨id, la, lo⟩ := s
  cases la with
  | none => simp [Stop.hasCoords] at hc
  | some la =>
    cases lo with
    | none => simp [Stop.hasCoords] at hc
    | some lo =>
      intro hnil
      have hm : (⟨la, lo⟩ : ShapePoint) ∈ stopCoords stops := by
        unfold stopCoords
        rw [List.mem_filterMap]
        exact ⟨⟨id, some la, some lo⟩, hs, rfl⟩
      rw [hnil] at hm
      exact absurd hm (List.not_mem_nil _)

theorem stopCoords_filter (stops : List Stop) :
    stopCoords (stops.filter Stop.hasCoords) = stopCoords stops := by
  induction stops with
  | nil => rfl
  | cons s ss ih =>
    obtain ⟨id, la, lo⟩ := s
    cases la with
    | none =>
      simp only [List.filter_cons, Stop.hasCoords, Option.isSome_none, Bool.false_and,
        Bool.false_eq_true, if_false]
      rw [ih]
      simp [stopCoords]
    | some la =>
      cases lo with
      | none =>
        simp only [List.filter_cons, Stop.hasCoords, Option.isSome_none, Bool.and_false,
          Bool.false_eq_true, if_false]
        rw [ih]
        simp [stopCoords]
      | some lo =>
        simp only [List.filter_cons, Stop.hasCoords, Option.isSome_some, Bool.and_self,
          if_true]
        simp only [stopCoords, List.filterMap_cons] at ih ⊢
        rw [ih]

theorem stopCoords_eq_nil (stops : List Stop) (h : ∀ s ∈ stops, s.hasCoords = false) :
    stopCoords stops = [] := by
  induction stops with
  | nil => rfl
  | cons s ss ih =>
    have hs := h s (List.mem_cons_self _ _)
    have ih' := ih (fun t ht => h t (List.mem_cons_of_mem _ ht))
    obtain ⟨id, la, lo⟩ := s
    cases la with
    | none => simpa [stopCoords] using ih'
    | some la =>
      cases lo with
      | none => simpa [stopCoords] using ih'
      | some lo => simp [Stop.hasCoords] at hs

theorem boundsFrom_nil :
    boundsFrom [] =
      { Lat := F64.zero, Lon := F64.zero, LatSpan := F64.zero, LonSpan := F64.zero } := by
  decide

/-- C4 (counterexample): one shape with the latitudes NaN, 10, 20.  In this
order the result has center latitude NaN and latitude span NaN; with the same
points in the order 10, NaN, 20 it has center latitude 15 and span 10.  The
latitudes have no least member under `<=`, so no minimum and maximum over
every point give the result. -/
theorem C4_nan_point_counterexample :
    ComputeRegionBounds
        [⟨"a", [⟨F64.nan, F64.ofInt 0⟩, ⟨F64.ofInt 10, F64.ofInt 0⟩,
          ⟨F64.ofInt 20, F64.ofInt 0⟩]⟩] [] =
      some { Lat := F64.nan, Lon := F64.zero, LatSpan := F64.nan, LonSpan := F64.zero } ∧
    ComputeRegionBounds
        [⟨"a", [⟨F64.ofInt 10, F64.ofInt 0⟩, ⟨F64.nan, F64.ofInt 0⟩,
          ⟨F64.ofInt 20, F64.ofInt 0⟩]⟩] [] =
      some { Lat := F64.ofInt 15, Lon := F64.zero, LatSpan := F64.ofInt 10,
             LonSpan := F64.zero } ∧
    ¬ (∃ minLat maxLat minLon maxLon : F64,
        ComputeRegionBounds
            [⟨"a", [⟨F64.nan, F64.ofInt 0⟩, ⟨F64.ofInt 10, F64.ofInt 0⟩,
              ⟨F64.ofInt 20, F64.ofInt 0⟩]⟩] [] =
          some { Lat := F64.half (F64.add minLat maxLat)
                 Lon := F64.half (F64.add minLon maxLon)
                 LatSpan := F64.sub maxLat minLat
                 LonSpan := F64.sub maxLon minLon } ∧
        IsLeastOf minLat (lats (allPoints
          [⟨"a", [⟨F64.nan, F64.ofInt 0⟩, ⟨F64.ofInt 10, F64.ofInt 0⟩,
            ⟨F64.ofInt 20, F64.ofInt 0⟩]⟩])) ∧
        IsGreatestOf maxLat (lats (allPoints
          [⟨"a", [⟨F64.nan, F64.ofInt 0⟩, ⟨F64.ofInt 10, F64.ofInt 0⟩,
            ⟨F64.ofInt 20, F64.ofInt 0⟩]⟩]))) ∧
    F64.isDouble F64.nan = true ∧ F64.isDouble (F64.ofInt 10) = true ∧
    F64.isDouble (F64.ofInt 20) = true := by
  refine ⟨by decide, by decide, ?_, by decide, by decide, by decide⟩
  rintro ⟨minLat, _, _, _, _, hl, _⟩
  exact not_isLeastOf_nan minLat _ (by simp [lats, allPoints]) hl

/-- C4 (amended): for every non-empty list of shapes with at least one point,
and every list of stops, the result is present; on each axis on which no point
coordinate is NaN its center is `(min + max) / 2` and its span is `max - min`,
where `min` and `max` are the least and the greatest coordinate over the
points of all shapes.  Points spanning latitude [10, 20] and longitude [-5, 5]
give center (15, 0) and spans 10 and 10. -/
theorem C4_bounds_from_shapes :
    (∀ (shapes : List Shape) (stops : List Stop),
      shapes ≠ [] → allPoints shapes ≠ [] →
      ∃ rb : RegionBounds,
        ComputeRegionBounds shapes stops = some rb ∧
        (NoNaN (lats (allPoints shapes)) →
          ∃ minLat maxLat : F64,
            IsLeastOf minLat (lats (allPoints shapes)) ∧
            IsGreatestOf maxLat (lats (allPoints shapes)) ∧
            rb.Lat = F64.half (F64.add minLat maxLat) ∧
            rb.LatSpan = F64.sub maxLat minLat) ∧
        (NoNaN (lons (allPoints shapes)) →
          ∃ minLon maxLon : F64,
            IsLeastOf minLon (lons (allPoints shapes)) ∧
            IsGreatestOf maxLon (lons (allPoints shapes)) ∧
            rb.Lon = F64.half (F64.add minLon maxLon) ∧
            rb.LonSpan = F64.sub maxLon minLon)) ∧
    ComputeRegionBounds
      [⟨"a", [⟨F64.ofInt 10, F64.ofInt (-5)⟩, ⟨F64.ofInt 15, F64.ofInt 0⟩]⟩,
       ⟨"b", [⟨F64.ofInt 20, F64.ofInt 5⟩]⟩]
      [⟨"s", some (F64.ofInt 40), some (F64.ofInt 40)⟩] =
      some { Lat := F64.ofInt 15, Lon := F64.ofInt 0,
             LatSpan := F64.ofInt 10, LonSpan := F64.ofInt 10 } := by
  refine ⟨?_, by decide⟩
  intro shapes stops hs hp
  have e1 : ¬ (shapes = [] ∧ stops = []) := fun h => hs h.1
  have hrb : ComputeRegionBounds shapes stops = some (boundsFrom (allPoints shapes)) := by
    rw [ComputeRegionBounds_eq, if_neg e1, if_neg hs]
  exact ⟨boundsFrom (allPoints shapes), hrb, boundsFrom_axes (allPoints shapes) hp⟩

/-- Witness of `C4_bounds_from_shapes`: one shape with the points (10, -5) and
(20, 5), and no stops. -/
theorem C4_bounds_from_shapes_witness :
    ([⟨"a", [⟨F64.ofInt 10, F64.ofInt (-5)⟩, ⟨F64.ofInt 20, F64.ofInt 5⟩]⟩] : List Shape) ≠ [] ∧
    allPoints [⟨"a", [⟨F64.ofInt 10, F64.ofInt (-5)⟩, ⟨F64.ofInt 20, F64.ofInt 5⟩]⟩] ≠ [] ∧
    NoNaN (lats (allPoints
      [⟨"a", [⟨F64.ofInt 10, F64.ofInt (-5)⟩, ⟨F64.ofInt 20, F64.ofInt 5⟩]⟩])) ∧
    NoNaN (lons (allPoints
      [⟨"a", [⟨F64.ofInt 10, F64.ofInt (-5)⟩, ⟨F64.ofInt 20, F64.ofInt 5⟩]⟩])) ∧
    ∃ rb : RegionBounds,
      ComputeRegionBounds
          [⟨"a", [⟨F64.ofInt 10, F64.ofInt (-5)⟩, ⟨F64.ofInt 20, F64.ofInt 5⟩]⟩] [] =
        some rb ∧
      (∃ minLat maxLat : F64,
        IsLeastOf minLat (lats (allPoints
          [⟨"a", [⟨F64.ofInt 10, F64.ofInt (-5)⟩, ⟨F64.ofInt 20, F64.ofInt 5⟩]⟩])) ∧
        IsGreatestOf maxLat (lats (allPoints
          [⟨"a", [⟨F64.ofInt 10, F64.ofInt (-5)⟩, ⟨F64.ofInt 20, F64.ofInt 5⟩]⟩])) ∧
        rb.Lat = F64.half (F64.add minLat maxLat) ∧
        rb.LatSpan = F64.sub maxLat minLat) ∧
      (∃ minLon maxLon : F64,
        IsLeastOf minLon (lons (allPoints
          [⟨"a", [⟨F64.ofInt 10, F64.ofInt (-5)⟩, ⟨F64.ofInt 20, F64.ofInt 5⟩]⟩])) ∧
        IsGreatestOf maxLon (lons (allPoints
          [⟨"a", [⟨F64.ofInt 10, F64.ofInt (-5)⟩, ⟨F64.ofInt 20, F64.ofInt 5⟩]⟩])) ∧
        rb.Lon = F64.half (F64.add minLon maxLon) ∧
        rb.LonSpan = F64.sub maxLon minLon) :=
  have n1 : NoNaN (lats (allPoints
      [⟨"a", [⟨F64.ofInt 10, F64.ofInt (-5)⟩, ⟨F64.ofInt 20, F64.ofInt 5⟩]⟩])) := by
    simp [NoNaN, lats, allPoints, F64.ofInt]
  have n2 : NoNaN (lons (allPoints
      [⟨"a", [⟨F64.ofInt 10, F64.ofInt (-5)⟩, ⟨F64.ofInt 20, F64.ofInt 5⟩]⟩])) := by
    simp [NoNaN, lons, allPoints, F64.ofInt]
  ⟨by decide, by decide, n1, n2,
    match C4_bounds_from_shapes.1
        [⟨"a", [⟨F64.ofInt 10, F64.ofInt (-5)⟩, ⟨F64.ofInt 20, F64.ofInt 5⟩]⟩] []
        (by decide) (by decide) with
    | ⟨rb, h, hlat, hlon⟩ => ⟨rb, h, hlat n1, hlon n2⟩⟩

/-- C5 (counterexample): no shapes and three stops with the latitudes NaN, 1,
3.  In this order the result has center latitude NaN and latitude span NaN;
with the same stops in the order 1, NaN, 3 it has center latitude 2 and span
2.  The latitudes have no least member under `<=`, so no minimum and maximum
over the stops with coordinates give the result. -/
theorem C5_nan_stop_counterexample :
    ComputeRegionBounds []
        [⟨"a", some F64.nan, some (F64.ofInt 0)⟩, ⟨"b", some (F64.ofInt 1), some (F64.ofInt 0)⟩,
         ⟨"c", some (F64.ofInt 3), some (F64.ofInt 0)⟩] =
      some { Lat := F64.nan, Lon := F64.zero, LatSpan := F64.nan, LonSpan := F64.zero } ∧
    ComputeRegionBounds []
        [⟨"b", some (F64.ofInt 1), some (F64.ofInt 0)⟩, ⟨"a", some F64.nan, some (F64.ofInt 0)⟩,
         ⟨"c", some (F64.ofInt 3), some (F64.ofInt 0)⟩] =
      some { Lat := F64.ofInt 2, Lon := F64.zero, LatSpan := F64.ofInt 2,
             LonSpan := F64.zero } ∧
    ¬ (∃ minLat maxLat minLon maxLon : F64,
        ComputeRegionBounds []
            [⟨"a", some F64.nan, some (F64.ofInt 0)⟩,
             ⟨"b", some (F64.ofInt 1), some (F64.ofInt 0)⟩,
             ⟨"c", some (F64.ofInt 3), some (F64.ofInt 0)⟩] =
          some { Lat := F64.half (F64.add minLat maxLat)
                 Lon := F64.half (F64.add minLon maxLon)
                 LatSpan := F64.sub maxLat minLat
                 LonSpan := F64.sub maxLon minLon } ∧
        IsLeastOf minLat (lats (stopCoords
          [⟨"a", some F64.nan, some (F64.ofInt 0)⟩,
           ⟨"b", some (F64.ofInt 1), some (F64.ofInt 0)⟩,
           ⟨"c", some (F64.ofInt 3), some (F64.ofInt 0)⟩])) ∧
        IsGreatestOf maxLat (lats (stopCoords
          [⟨"a", some F64.nan, some (F64.ofInt 0)⟩,
           ⟨"b", some (F64.ofInt 1), some (F64.ofInt 0)⟩,
           ⟨"c", some (F64.ofInt 3), some (F64.ofInt 0)⟩]))) ∧
    F64.isDouble F64.nan = true ∧ F64.isDouble (F64.ofInt 1) = true ∧
    F64.isDouble (F64.ofInt 3) = true := by
  refine ⟨by decide, by decide, ?_, by decide, by decide, by decide⟩
  rintro ⟨minLat, _, _, _, _, hl, _⟩
  exact not_isLeastOf_nan minLat _ (by simp [lats, stopCoords]) hl

/-- C5 (amended): for an empty shape list and every stop list with at least
one stop that has both coordinates, the result is present; on each axis on
which no coordinate of a stop with both coordinates is NaN its center is
`(min + max) / 2` and its span `max - min`, where `min` and `max` are the least
and the greatest coordinate over exactly the stops that have both
coordinates; the stops missing a coordinate can be removed without changing
the result.  The stops (1,1) and (3,3) give center (2,2) and spans 2 and 2. -/
theorem C5_bounds_from_stops :
    (∀ stops : List Stop, (∃ s ∈ stops, s.hasCoords = true) →
      ∃ rb : RegionBounds,
        ComputeRegionBounds [] stops = some rb ∧
        (NoNaN (lats (stopCoords stops)) →
          ∃ minLat maxLat : F64,
            IsLeastOf minLat (lats (stopCoords stops)) ∧
            IsGreatestOf maxLat (lats (stopCoords stops)) ∧
            rb.Lat = F64.half (F64.add minLat maxLat) ∧
            rb.LatSpan = F64.sub maxLat minLat) ∧
        (NoNaN (lons (stopCoords stops)) →
          ∃ minLon maxLon : F64,
            IsLeastOf minLon (lons (stopCoords stops)) ∧
            IsGreatestOf maxLon (lons (stopCoords stops)) ∧
            rb.Lon = F64.half (F64.add minLon maxLon) ∧
            rb.LonSpan = F64.sub maxLon minLon) ∧
        ComputeRegionBounds [] stops =
          ComputeRegionBounds [] (stops.filter Stop.hasCoords)) ∧
    ComputeRegionBounds []
      [⟨"a", some (F64.ofInt 1), some (F64.ofInt 1)⟩, ⟨"x", none, some (F64.ofInt 9)⟩,
       ⟨"b", some (F64.ofInt 3), some (F64.ofInt 3)⟩, ⟨"y", some (F64.ofInt 7), none⟩] =
      some { Lat := F64.ofInt 2, Lon := F64.ofInt 2,
             LatSpan := F64.ofInt 2, LonSpan := F64.ofInt 2 } := by
  refine ⟨?_, by decide⟩
  intro stops hex
  have hne := stopCoords_ne_nil stops hex
  have hstops : stops ≠ [] := by
    rintro rfl
    exact hne rfl
  have hfilt : stops.filter Stop.hasCoords ≠ [] := by
    intro h
    have h2 := stopCoords_filter stops
    rw [h] at h2
    exact hne h2.symm
  have e1 : ¬ (([] : List Shape) = [] ∧ stops = []) := fun h => hstops h.2
  have e2 : ¬ (([] : List Shape) = [] ∧ stops.filter Stop.hasCoords = []) :=
    fun h => hfilt h.2
  have hrb : ComputeRegionBounds [] stops = some (boundsFrom (stopCoords stops)) := by
    rw [ComputeRegionBounds_eq, if_neg e1, if_pos rfl]
  refine ⟨boundsFrom (stopCoords stops), hrb, (boundsFrom_axes _ hne).1,
    (boundsFrom_axes _ hne).2, ?_⟩
  rw [ComputeRegionBounds_eq, ComputeRegionBounds_eq, if_neg e1, if_neg e2, if_pos rfl,
    stopCoords_filter, if_pos rfl]

/-- Witness of `C5_bounds_from_stops`: the stops (1,1) and (3,3). -/
theorem C5_bounds_from_stops_witness :
    (∃ s ∈ ([⟨"a", some (F64.ofInt 1), some (F64.ofInt 1)⟩,
        ⟨"b", some (F64.ofInt 3), some (F64.ofInt 3)⟩] : List Stop), s.hasCoords = true) ∧
    NoNaN (lats (stopCoords
      [⟨"a", some (F64.ofInt 1), some (F64.ofInt 1)⟩,
       ⟨"b", some (F64.ofInt 3), some (F64.ofInt 3)⟩])) ∧
    NoNaN (lons (stopCoords
      [⟨"a", some (F64.ofInt 1), some (F64.ofInt 1)⟩,
       ⟨"b", some (F64.ofInt 3), some (F64.ofInt 3)⟩])) ∧
    ∃ rb : RegionBounds,
      ComputeRegionBounds []
          [⟨"a", some (F64.ofInt 1), some (F64.ofInt 1)⟩,
           ⟨"b", some (F64.ofInt 3), some (F64.ofInt 3)⟩] = some rb ∧
      (∃ minLat maxLat : F64,
        IsLeastOf minLat (lats (stopCoords
          [⟨"a", some (F64.ofInt 1), some (F64.ofInt 1)⟩,
           ⟨"b", some (F64.ofInt 3), some (F64.ofInt 3)⟩])) ∧
        IsGreatestOf maxLat (lats (stopCoords
          [⟨"a", some (F64.ofInt 1), some (F64.ofInt 1)⟩,
           ⟨"b", some (F64.ofInt 3), some (F64.ofInt 3)⟩])) ∧
        rb.Lat = F64.half (F64.add minLat maxLat) ∧
        rb.LatSpan = F64.sub maxLat minLat) ∧
      (∃ minLon maxLon : F64,
        IsLeastOf minLon (lons (stopCoords
          [⟨"a", some (F64.ofInt 1), some (F64.ofInt 1)⟩,
           ⟨"b", some (F64.ofInt 3), some (F64.ofInt 3)⟩])) ∧
        IsGreatestOf maxLon (lons (stopCoords
          [⟨"a", some (F64.ofInt 1), some (F64.ofInt 1)⟩,
           ⟨"b", some (F64.ofInt 3), some (F64.ofInt 3)⟩])) ∧
        rb.Lon = F64.half (F64.add minLon maxLon) ∧
        rb.LonSpan = F64.sub maxLon minLon) :=
  have n1 : NoNaN (lats (stopCoords
      [⟨"a", some (F64.ofInt 1), some (F64.ofInt 1)⟩,
       ⟨"b", some (F64.ofInt 3), some (F64.ofInt 3)⟩])) := by
    simp [NoNaN, lats, stopCoords, F64.ofInt]
  have n2 : NoNaN (lons (stopCoords
      [⟨"a", some (F64.ofInt 1), some (F64.ofInt 1)⟩,
       ⟨"b", some (F64.ofInt 3), some (F64.ofInt 3)⟩])) := by
    simp [NoNaN, lons, stopCoords, F64.ofInt]
  ⟨⟨_, List.mem_cons_self _ _, rfl⟩, n1, n2,
    match C5_bounds_from_stops.1
        [⟨"a", some (F64.ofInt 1), some (F64.ofInt 1)⟩,
         ⟨"b", some (F64.ofInt 3), some (F64.ofInt 3)⟩]
        ⟨_, List.mem_cons_self _ _, rfl⟩ with
    | ⟨rb, h, hlat, hlon, _⟩ => ⟨rb, h, hlat n1, hlon n2⟩⟩

/-- C6 (counterexample): with no shapes and one stop that has no coordinates
the result is present, with all four fields zero. -/
theorem C6_present_without_coordinates_counterexample :
    ComputeRegionBounds [] [⟨"s", none, none⟩] =
      some { Lat := F64.zero, Lon := F64.zero, LatSpan := F64.zero, LonSpan := F64.zero } ∧
    ComputeRegionBounds [] [⟨"s", none, none⟩] ≠ none := by
  decide

/-- C6 (amended): with no shapes and no stops the result is absent; with no
shapes and a non-empty stop list in which no stop has both coordinates the
result is present with center (0, 0) and both spans 0. -/
theorem C6_absent_iff_no_input :
    ComputeRegionBounds [] [] = none ∧
    ∀ stops : List Stop, stops ≠ [] → (∀ s ∈ stops, s.hasCoords = false) →
      ComputeRegionBounds [] stops =
        some { Lat := F64.zero, Lon := F64.zero, LatSpan := F64.zero,
               LonSpan := F64.zero } := by
  refine ⟨by decide, ?_⟩
  intro stops hne hall
  have e1 : ¬ (([] : List Shape) = [] ∧ stops = []) := fun h => hne h.2
  rw [ComputeRegionBounds_eq, if_neg e1, if_pos rfl, stopCoords_eq_nil stops hall,
    boundsFrom_nil]

/-- Witness of `C6_absent_iff_no_input`: a stop with a latitude only. -/
theorem C6_absent_iff_no_input_witness :
    ([⟨"s", some (F64.ofInt 7), none⟩] : List Stop) ≠ [] ∧
    (∀ s ∈ ([⟨"s", some (F64.ofInt 7), none⟩] : List Stop), s.hasCoords = false) ∧
    ComputeRegionBounds [] [⟨"s", some (F64.ofInt 7), none⟩] =
      some { Lat := F64.zero, Lon := F64.zero, LatSpan := F64.zero, LonSpan := F64.zero } :=
  ⟨by decide, by decide,
    C6_absent_iff_no_input.2 [⟨"s", some (F64.ofInt 7), none⟩] (by decide) (by decide)⟩

theorem ne_nan_of_isFinite {x : F64} (h : x.isFinite = true) : x ≠ F64.nan := by
  rintro rfl
  simp [F64.isFinite] at h

theorem span_ge_zero (a : F64) (xs : List F64) (h : AllFinite (a :: xs)) :
    F64.ge (F64.sub (selFold F64.gt a xs) (selFold F64.lt a xs)) F64.zero = true := by
  have hmin := selFold_lt_spec a xs
  have hmax := selFold_gt_spec a xs
  have hle : F64.le (selFold F64.lt a xs) (selFold F64.gt a xs) = true :=
    F64.le_of_not_lt (ne_nan_of_isFinite (h _ hmin.1)) (ne_nan_of_isFinite (h _ hmax.1))
      (hmin.2 _ hmax.1)
  exact F64.sub_ge_zero (h _ hmin.1) (h _ hmax.1) hle

theorem boundsFrom_spans (ps : List ShapePoint) (hlat : AllFinite (lats ps))
    (hlon : AllFinite (lons ps)) :
    F64.ge (boundsFrom ps).LatSpan F64.zero = true ∧
    F64.ge (boundsFrom ps).LonSpan F64.zero = true := by
  cases ps with
  | nil => exact ⟨by decide, by decide⟩
  | cons p ps => exact ⟨span_ge_zero _ _ hlat, span_ge_zero _ _ hlon⟩

/-- C7 (counterexample): a single shape point with NaN coordinates gives a
present result whose spans are NaN, and `NaN >= 0` is false; a single point
with latitude `+Inf` gives the latitude span `Inf - Inf`, NaN again. -/
theorem C7_span_not_nonneg_counterexample :
    ComputeRegionBounds [⟨"a", [⟨F64.nan, F64.nan⟩]⟩] [] =
      some { Lat := F64.nan, Lon := F64.nan, LatSpan := F64.nan, LonSpan := F64.nan } ∧
    ComputeRegionBounds [⟨"a", [⟨F64.inf false, F64.ofInt 0⟩]⟩] [] =
      some { Lat := F64.inf false, Lon := F64.zero, LatSpan := F64.nan,
             LonSpan := F64.zero } ∧
    F64.ge F64.nan F64.zero = false ∧
    F64.isDouble F64.nan = true ∧ F64.isDouble (F64.inf false) = true ∧
    F64.isDouble (F64.ofInt 0) = true := by
  decide

/-- C7 (amended): when every coordinate of every shape point and of every stop
with both coordinates is a finite number, every present result has
`LatSpan >= 0` and `LonSpan >= 0`. -/
theorem C7_spans_nonneg (shapes : List Shape) (stops : List Stop) (rb : RegionBounds)
    (hshapes : AllFinite (lats (allPoints shapes)) ∧ AllFinite (lons (allPoints shapes)))
    (hstops : AllFinite (lats (stopCoords stops)) ∧ AllFinite (lons (stopCoords stops)))
    (h : ComputeRegionBounds shapes stops = some rb) :
    F64.ge rb.LatSpan F64.zero = true ∧ F64.ge rb.LonSpan F64.zero = true := by
  rw [ComputeRegionBounds_eq] at h
  split at h
  · exact absurd h (by simp)
  · injection h with h
    subst h
    split
    · exact boundsFrom_spans _ hstops.1 hstops.2
    · exact boundsFrom_spans _ hshapes.1 hshapes.2

/-- Witness of `C7_spans_nonneg`: the points (10, -5) and (20, 5). -/
theorem C7_spans_nonneg_witness :
    (AllFinite (lats (allPoints
        [⟨"a", [⟨F64.ofInt 10, F64.ofInt (-5)⟩, ⟨F64.ofInt 20, F64.ofInt 5⟩]⟩])) ∧
      AllFinite (lons (allPoints
        [⟨"a", [⟨F64.ofInt 10, F64.ofInt (-5)⟩, ⟨F64.ofInt 20, F64.ofInt 5⟩]⟩]))) ∧
    (AllFinite (lats (stopCoords [])) ∧ AllFinite (lons (stopCoords []))) ∧
    ComputeRegionBounds
        [⟨"a", [⟨F64.ofInt 10, F64.ofInt (-5)⟩, ⟨F64.ofInt 20, F64.ofInt 5⟩]⟩] [] =
      some { Lat := F64.ofInt 15, Lon := F64.ofInt 0,
             LatSpan := F64.ofInt 10, LonSpan := F64.ofInt 10 } ∧
    F64.ge (F64.ofInt 10) F64.zero = true ∧ F64.ge (F64.ofInt 10) F64.zero = true :=
  have h1 : AllFinite (lats (allPoints
        [⟨"a", [⟨F64.ofInt 10, F64.ofInt (-5)⟩, ⟨F64.ofInt 20, F64.ofInt 5⟩]⟩])) ∧
      AllFinite (lons (allPoints
        [⟨"a", [⟨F64.ofInt 10, F64.ofInt (-5)⟩, ⟨F64.ofInt 20, F64.ofInt 5⟩]⟩])) := by
    simp [AllFinite, lats, lons, allPoints, F64.isFinite, F64.ofInt]
  have h2 : AllFinite (lats (stopCoords [])) ∧ AllFinite (lons (stopCoords [])) := by
    simp [AllFinite, lats, lons, stopCoords]
  ⟨h1, h2, by decide,
    C7_spans_nonneg
      [⟨"a", [⟨F64.ofInt 10, F64.ofInt (-5)⟩, ⟨F64.ofInt 20, F64.ofInt 5⟩]⟩] []
      { Lat := F64.ofInt 15, Lon := F64.ofInt 0,
        LatSpan := F64.ofInt 10, LonSpan := F64.ofInt 10 } h1 h2 (by decide)⟩

theorem ComputeRegionBounds_shapes (shapes : List Shape) (stops : List Stop)
    (h : shapes ≠ []) :
    ComputeRegionBounds shapes stops = some (boundsFrom (allPoints shapes)) := by
  have e1 : ¬ (shapes = [] ∧ stops = []) := fun h' => h h'.1
  rw [ComputeRegionBounds_eq, if_neg e1, if_neg h]

theorem ComputeRegionBounds_stops (stops : List Stop) (h : stops ≠ []) :
    ComputeRegionBounds [] stops = some (boundsFrom (stopCoords stops)) := by
  have e1 : ¬ (([] : List Shape) = [] ∧ stops = []) := fun h' => h h'.2
  rw [ComputeRegionBounds_eq, if_neg e1, if_pos rfl]

theorem least_same {m m' : F64} {l l' : List F64} (hp : l.Perm l')
    (h : IsLeastOf m l) (h' : IsLeastOf m' l') : F64.same m m' :=
  F64.same_of_le_le (h.2 m' (hp.mem_iff.2 h'.1)) (h'.2 m (hp.mem_iff.1 h.1))

theorem greatest_same {m m' : F64} {l l' : List F64} (hp : l.Perm l')
    (h : IsGreatestOf m l) (h' : IsGreatestOf m' l') : F64.same m m' :=
  F64.same_of_le_le (h'.2 m (hp.mem_iff.1 h.1)) (h.2 m' (hp.mem_iff.2 h'.1))

theorem NoNaN.perm {l l' : List F64} (hp : l.Perm l') (h : NoNaN l) : NoNaN l' :=
  fun x hx => h x (hp.mem_iff.2 hx)

theorem boundsOf_same {a a' b b' c c' d d' : F64} (ha : F64.same a a') (hb : F64.same b b')
    (hc : F64.same c c') (hd : F64.same d d') :
    sameBounds (some (boundsOf a b c d)) (some (boundsOf a' b' c' d')) :=
  ⟨F64.same_half (F64.same_add ha hb), F64.same_half (F64.same_add hc hd),
    F64.same_sub hb ha, F64.same_sub hd hc⟩

theorem sameBounds_refl (r : Option RegionBounds) : sameBounds r r := by
  cases r with
  | none => exact True.intro
  | some rb => exact ⟨F64.same_refl _, F64.same_refl _, F64.same_refl _, F64.same_refl _⟩

/-- The bounds of a sequence of NaN-free coordinate pairs do not depend on
the order of the pairs. -/
theorem boundsFrom_perm {ps ps' : List ShapePoint} (hp : ps.Perm ps')
    (hlat : NoNaN (lats ps)) (hlon : NoNaN (lons ps)) :
    sameBounds (some (boundsFrom ps)) (some (boundsFrom ps')) := by
  have hplat : (lats ps).Perm (lats ps') := hp.map _
  have hplon : (lons ps).Perm (lons ps') := hp.map _
  have hlat' := hlat.perm hplat
  have hlon' := hlon.perm hplon
  cases ps with
  | nil =>
    rw [List.nil_perm] at hp
    subst hp
    exact sameBounds_refl _
  | cons p ps =>
    cases ps' with
    | nil => exact absurd hp.symm (List.not_perm_nil_cons _ _)
    | cons q qs =>
      exact boundsOf_same
        (least_same hplat (selFold_least _ _ hlat) (selFold_least _ _ hlat'))
        (greatest_same hplat (selFold_greatest _ _ hlat) (selFold_greatest _ _ hlat'))
        (least_same hplon (selFold_least _ _ hlon) (selFold_least _ _ hlon'))
        (greatest_same hplon (selFold_greatest _ _ hlon) (selFold_greatest _ _ hlon'))

theorem allPoints_perm {s t : List Shape} (h : s.Perm t) :
    (allPoints s).Perm (allPoints t) := by
  unfold allPoints
  induction h with
  | nil => exact List.Perm.refl _
  | cons x _ ih =>
    simp only [List.flatMap_cons]
    exact List.Perm.append_left _ ih
  | swap x y l =>
    simp only [List.flatMap_cons]
    rw [← List.append_assoc, ← List.append_assoc]
    exact List.Perm.append_right _ List.perm_append_comm
  | trans _ _ ih₁ ih₂ => exact ih₁.trans ih₂

theorem allPoints_forall₂ {s t : List Shape}
    (h : List.Forall₂ (fun a b : Shape => a.Points.Perm b.Points) s t) :
    (allPoints s).Perm (allPoints t) := by
  unfold allPoints
  induction h with
  | nil => exact List.Perm.refl _
  | cons hab _ ih =>
    simp only [List.flatMap_cons]
    exact List.Perm.append hab ih

/-- C8 (counterexample): the points (NaN, 0) and (1, 0) of one shape give
center latitude NaN and latitude span NaN in this order, and center latitude 1
and latitude span 0 in the other order. -/
theorem C8_order_dependent_counterexample :
    List.Perm [(⟨F64.nan, F64.ofInt 0⟩ : ShapePoint), ⟨F64.ofInt 1, F64.ofInt 0⟩]
      [⟨F64.ofInt 1, F64.ofInt 0⟩, ⟨F64.nan, F64.ofInt 0⟩] ∧
    ComputeRegionBounds [⟨"a", [⟨F64.nan, F64.ofInt 0⟩, ⟨F64.ofInt 1, F64.ofInt 0⟩]⟩] [] =
      some { Lat := F64.nan, Lon := F64.zero, LatSpan := F64.nan, LonSpan := F64.zero } ∧
    ComputeRegionBounds [⟨"a", [⟨F64.ofInt 1, F64.ofInt 0⟩, ⟨F64.nan, F64.ofInt 0⟩]⟩] [] =
      some { Lat := F64.ofInt 1, Lon := F64.zero, LatSpan := F64.zero,
             LonSpan := F64.zero } ∧
    ComputeRegionBounds [⟨"a", [⟨F64.nan, F64.ofInt 0⟩, ⟨F64.ofInt 1, F64.ofInt 0⟩]⟩] [] ≠
      ComputeRegionBounds [⟨"a", [⟨F64.ofInt 1, F64.ofInt 0⟩, ⟨F64.nan, F64.ofInt 0⟩]⟩] [] ∧
    ¬ sameBounds
      (ComputeRegionBounds [⟨"a", [⟨F64.nan, F64.ofInt 0⟩, ⟨F64.ofInt 1, F64.ofInt 0⟩]⟩] [])
      (ComputeRegionBounds [⟨"a", [⟨F64.ofInt 1, F64.ofInt 0⟩, ⟨F64.nan, F64.ofInt 0⟩]⟩] []) ∧
    F64.isDouble F64.nan = true ∧ F64.isDouble (F64.ofInt 1) = true ∧
    F64.isDouble (F64.ofInt 0) = true :=
  ⟨List.Perm.swap _ _ _, by decide, by decide, by decide, by decide, by decide, by decide,
    by decide⟩

/-- C8 (amended): when no coordinate of a shape point or of a stop with both
coordinates is NaN, permuting the shapes, permuting the points inside the
shapes and permuting the stops leaves the result unchanged: the same absence,
and the same center and spans up to the sign of a zero. -/
theorem C8_order_independent (shapes₁ shapes₂ shapes₃ : List Shape) (stops stops' : List Stop)
    (hshapes : shapes₁.Perm shapes₂)
    (hpoints : List.Forall₂ (fun a b : Shape => a.Points.Perm b.Points) shapes₂ shapes₃)
    (hstops : stops.Perm stops')
    (hn : NoNaN (lats (allPoints shapes₁)) ∧ NoNaN (lons (allPoints shapes₁)))
    (hn' : NoNaN (lats (stopCoords stops)) ∧ NoNaN (lons (stopCoords stops))) :
    sameBounds (ComputeRegionBounds shapes₁ stops) (ComputeRegionBounds shapes₃ stops') := by
  have hpts : (allPoints shapes₁).Perm (allPoints shapes₃) :=
    (allPoints_perm hshapes).trans (allPoints_forall₂ hpoints)
  have hsc : (stopCoords stops).Perm (stopCoords stops') := hstops.filterMap _
  have hlen : shapes₁.length = shapes₃.length := by
    rw [hshapes.length_eq, hpoints.length_eq]
  have hnil : shapes₁ = [] ↔ shapes₃ = [] := by
    rw [← List.length_eq_zero, ← List.length_eq_zero, hlen]
  have hnil' : stops = [] ↔ stops' = [] := by
    rw [← List.length_eq_zero, ← List.length_eq_zero, hstops.length_eq]
  by_cases h1 : shapes₁ = []
  · have h3 := hnil.1 h1
    subst h1
    subst h3
    by_cases h2 : stops = []
    · have h4 := hnil'.1 h2
      subst h2
      subst h4
      exact sameBounds_refl _
    · have h4 : stops' ≠ [] := fun h => h2 (hnil'.2 h)
      rw [ComputeRegionBounds_stops _ h2, ComputeRegionBounds_stops _ h4]
      exact boundsFrom_perm hsc hn'.1 hn'.2
  · have h3 : shapes₃ ≠ [] := fun h => h1 (hnil.2 h)
    rw [ComputeRegionBounds_shapes _ _ h1, ComputeRegionBounds_shapes _ _ h3]
    exact boundsFrom_perm hpts hn.1 hn.2

/-- Witness of `C8_order_independent`: two shapes swapped, the points of one
of them swapped, two stops swapped. -/
theorem C8_order_independent_witness :
    List.Perm
      ([⟨"a", [⟨F64.ofInt 10, F64.ofInt (-5)⟩, ⟨F64.ofInt 20, F64.ofInt 5⟩]⟩,
        ⟨"b", [⟨F64.ofInt 0, F64.ofInt 7⟩]⟩] : List Shape)
      [⟨"b", [⟨F64.ofInt 0, F64.ofInt 7⟩]⟩,
       ⟨"a", [⟨F64.ofInt 10, F64.ofInt (-5)⟩, ⟨F64.ofInt 20, F64.ofInt 5⟩]⟩] ∧
    List.Forall₂ (fun a b : Shape => a.Points.Perm b.Points)
      [⟨"b", [⟨F64.ofInt 0, F64.ofInt 7⟩]⟩,
       ⟨"a", [⟨F64.ofInt 10, F64.ofInt (-5)⟩, ⟨F64.ofInt 20, F64.ofInt 5⟩]⟩]
      [⟨"b", [⟨F64.ofInt 0, F64.ofInt 7⟩]⟩,
       ⟨"a", [⟨F64.ofInt 20, F64.ofInt 5⟩, ⟨F64.ofInt 10, F64.ofInt (-5)⟩]⟩] ∧
    List.Perm
      ([⟨"s", some (F64.ofInt 1), some (F64.ofInt 1)⟩, ⟨"t", none, none⟩] : List Stop)
      [⟨"t", none, none⟩, ⟨"s", some (F64.ofInt 1), some (F64.ofInt 1)⟩] ∧
    (NoNaN (lats (allPoints
        [⟨"a", [⟨F64.ofInt 10, F64.ofInt (-5)⟩, ⟨F64.ofInt 20, F64.ofInt 5⟩]⟩,
         ⟨"b", [⟨F64.ofInt 0, F64.ofInt 7⟩]⟩])) ∧
      NoNaN (lons (allPoints
        [⟨"a", [⟨F64.ofInt 10, F64.ofInt (-5)⟩, ⟨F64.ofInt 20, F64.ofInt 5⟩]⟩,
         ⟨"b", [⟨F64.ofInt 0, F64.ofInt 7⟩]⟩]))) ∧
    (NoNaN (lats (stopCoords
        [⟨"s", some (F64.ofInt 1), some (F64.ofInt 1)⟩, ⟨"t", none, none⟩])) ∧
      NoNaN (lons (stopCoords
        [⟨"s", some (F64.ofInt 1), some (F64.ofInt 1)⟩, ⟨"t", none, none⟩]))) ∧
    sameBounds
      (ComputeRegionBounds
        [⟨"a", [⟨F64.ofInt 10, F64.ofInt (-5)⟩, ⟨F64.ofInt 20, F64.ofInt 5⟩]⟩,
         ⟨"b", [⟨F64.ofInt 0, F64.ofInt 7⟩]⟩]
        [⟨"s", some (F64.ofInt 1), some (F64.ofInt 1)⟩, ⟨"t", none, none⟩])
      (ComputeRegionBounds
        [⟨"b", [⟨F64.ofInt 0, F64.ofInt 7⟩]⟩,
         ⟨"a", [⟨F64.ofInt 20, F64.ofInt 5⟩, ⟨F64.ofInt 10, F64.ofInt (-5)⟩]⟩]
        [⟨"t", none, none⟩, ⟨"s", some (F64.ofInt 1), some (F64.ofInt 1)⟩]) :=
  have h1 : List.Perm
      ([⟨"a", [⟨F64.ofInt 10, F64.ofInt (-5)⟩, ⟨F64.ofInt 20, F64.ofInt 5⟩]⟩,
        ⟨"b", [⟨F64.ofInt 0, F64.ofInt 7⟩]⟩] : List Shape)
      [⟨"b", [⟨F64.ofInt 0, F64.ofInt 7⟩]⟩,
       ⟨"a", [⟨F64.ofInt 10, F64.ofInt (-5)⟩, ⟨F64.ofInt 20, F64.ofInt 5⟩]⟩] :=
    List.Perm.swap _ _ _
  have h2 : List.Forall₂ (fun a b : Shape => a.Points.Perm b.Points)
      [⟨"b", [⟨F64.ofInt 0, F64.ofInt 7⟩]⟩,
       ⟨"a", [⟨F64.ofInt 10, F64.ofInt (-5)⟩, ⟨F64.ofInt 20, F64.ofInt 5⟩]⟩]
      [⟨"b", [⟨F64.ofInt 0, F64.ofInt 7⟩]⟩,
       ⟨"a", [⟨F64.ofInt 20, F64.ofInt 5⟩, ⟨F64.ofInt 10, F64.ofInt (-5)⟩]⟩] :=
    List.Forall₂.cons (List.Perm.refl _)
      (List.Forall₂.cons (List.Perm.swap _ _ _) List.Forall₂.nil)
  have h3 : List.Perm
      ([⟨"s", some (F64.ofInt 1), some (F64.ofInt 1)⟩, ⟨"t", none, none⟩] : List Stop)
      [⟨"t", none, none⟩, ⟨"s", some (F64.ofInt 1), some (F64.ofInt 1)⟩] :=
    List.Perm.swap _ _ _
  have h4 : NoNaN (lats (allPoints
        [⟨"a", [⟨F64.ofInt 10, F64.ofInt (-5)⟩, ⟨F64.ofInt 20, F64.ofInt 5⟩]⟩,
         ⟨"b", [⟨F64.ofInt 0, F64.ofInt 7⟩]⟩])) ∧
      NoNaN (lons (allPoints
        [⟨"a", [⟨F64.ofInt 10, F64.ofInt (-5)⟩, ⟨F64.ofInt 20, F64.ofInt 5⟩]⟩,
         ⟨"b", [⟨F64.ofInt 0, F64.ofInt 7⟩]⟩])) := by
    simp [NoNaN, lats, lons, allPoints, F64.ofInt]
  have h5 : NoNaN (lats (stopCoords
        [⟨"s", some (F64.ofInt 1), some (F64.ofInt 1)⟩, ⟨"t", none, none⟩])) ∧
      NoNaN (lons (stopCoords
        [⟨"s", some (F64.ofInt 1), some (F64.ofInt 1)⟩, ⟨"t", none, none⟩])) := by
    simp [NoNaN, lats, lons, stopCoords, F64.ofInt]
  ⟨h1, h2, h3, h4, h5, C8_order_independent _ _ _ _ _ h1 h2 h3 h4 h5⟩

/-- C9: `GetRegionBounds` returns (0, 0, 0, 0) when no region bounds are
installed and the installed (Lat, Lon, LatSpan, LonSpan) otherwise, and in
both cases leaves the manager as it was. -/
theorem C9_GetRegionBounds {σ : Type} :
    (∀ others : σ,
      Manager.GetRegionBounds { regionBounds := none, others := others } =
        ((F64.zero, F64.zero, F64.zero, F64.zero),
          { regionBounds := none, others := others })) ∧
    (∀ (rb : RegionBounds) (others : σ),
      Manager.GetRegionBounds { regionBounds := some rb, others := others } =
        ((rb.Lat, rb.Lon, rb.LatSpan, rb.LonSpan),
          { regionBounds := some rb, others := others })) ∧
    (∀ manager : Manager σ, manager.GetRegionBounds.2 = manager) ∧
    (∀ manager : Manager σ, manager.GetRegionBounds.1 =
      match manager.regionBounds with
      | none => (F64.zero, F64.zero, F64.zero, F64.zero)
      | some rb => (rb.Lat, rb.Lon, rb.LatSpan, rb.LonSpan)) := by
  refine ⟨fun _ => rfl, fun _ _ => rfl, ?_, ?_⟩
  · intro manager
    obtain ⟨rb, others⟩ := manager
    cases rb <;> rfl
  · intro manager
    obtain ⟨rb, others⟩ := manager
    cases rb <;> rfl

end gtfs

/-! ## Theorems: package restapi -/

namespace restapi

theorem public_ne_noStore (d : Int) :
    "public, max-age=" ++ toString d ≠ "no-cache, no-store, must-revalidate" := by
  intro h
  have h2 := congrArg String.data h
  rw [String.data_append] at h2
  simp at h2

theorem Header.Get_Set (h : Header) (key value : String) :
    Header.Get (Header.Set h key value) key = value := by
  simp [Header.Get, Header.Set, List.lookup]

/-- The value the wrapper sets on the first status `c` is the one of the
specification. -/
theorem cacheControlWriter.WriteHeader_fresh {W : Type} [restapi.ResponseWriter W]
    (d c : Int) (w : W) :
    cacheControlWriter.WriteHeader
        { ResponseWriter := w, headerValue := cacheHeaderValue d, headerWritten := false } c =
      { ResponseWriter :=
          restapi.ResponseWriter.WriteHeader
            (restapi.ResponseWriter.HeaderSet w "Cache-Control" (cacheControlSpec d c)) c
        headerValue := cacheHeaderValue d
        headerWritten := true } := by
  unfold cacheControlWriter.WriteHeader cacheControlSpec cacheHeaderValue StatusNotModified
  by_cases hc : (c ≥ 200 ∧ c < 300) ∨ c = 304
  · by_cases hd : d > 0
    · simp [hc, hd]
    · simp [hc, hd]
  · by_cases hd : d > 0
    · simp [hc, hd]
    · simp [hc, hd]

theorem cacheControlWriter.Write_fresh {W : Type} [restapi.ResponseWriter W]
    (d : Int) (b : List UInt8) (w : W) :
    cacheControlWriter.Write
        { ResponseWriter := w, headerValue := cacheHeaderValue d, headerWritten := false } b =
      { ResponseWriter :=
          restapi.ResponseWriter.Write
            (restapi.ResponseWriter.WriteHeader
              (restapi.ResponseWriter.HeaderSet w "Cache-Control" (cacheControlSpec d 200))
              200) b
        headerValue := cacheHeaderValue d
        headerWritten := true } := by
  unfold cacheControlWriter.Write
  simp only [Bool.not_false, if_true]
  rw [show StatusOK = 200 from rfl, cacheControlWriter.WriteHeader_fresh]

/-- C10: the first status `c` written through the writer of
`CacheControlMiddleware d` (a body write without a status counting as 200)
sets Cache-Control, before the status goes out, to `public, max-age=<d>`
exactly when `d > 0` and `c` is 2xx or 304, and to the no-store value in every
other case.  Four runs on a fresh response are included: duration 300 with
status 200, 304 and 404, and duration 0 with a body write. -/
theorem C10_cache_control_tiering :
    (∀ (W : Type) [ResponseWriter W] (d c : Int) (w : W),
      cacheControlWriter.WriteHeader
          { ResponseWriter := w, headerValue := cacheHeaderValue d, headerWritten := false } c =
        { ResponseWriter :=
            ResponseWriter.WriteHeader
              (ResponseWriter.HeaderSet w "Cache-Control" (cacheControlSpec d c)) c
          headerValue := cacheHeaderValue d
          headerWritten := true }) ∧
    (∀ (W : Type) [ResponseWriter W] (d : Int) (b : List UInt8) (w : W),
      cacheControlWriter.Write
          { ResponseWriter := w, headerValue := cacheHeaderValue d, headerWritten := false } b =
        { ResponseWriter :=
            ResponseWriter.Write
              (ResponseWriter.WriteHeader
                (ResponseWriter.HeaderSet w "Cache-Control" (cacheControlSpec d 200)) 200) b
          headerValue := cacheHeaderValue d
          headerWritten := true }) ∧
    (∀ (W : Type) [ResponseWriter W] (d c : Int) (w : W) (r : Request),
      (CacheControlMiddleware d (statusHandler c)).ServeHTTP w r =
        ResponseWriter.WriteHeader
          (ResponseWriter.HeaderSet w "Cache-Control" (cacheControlSpec d c)) c) ∧
    (∀ (W : Type) [ResponseWriter W] (d : Int) (b : List UInt8) (w : W) (r : Request),
      (CacheControlMiddleware d (bodyHandler b)).ServeHTTP w r =
        ResponseWriter.Write
          (ResponseWriter.WriteHeader
            (ResponseWriter.HeaderSet w "Cache-Control" (cacheControlSpec d 200)) 200) b) ∧
    (∀ (d c : Int) (r : Request),
      ((CacheControlMiddleware d (statusHandler c)).ServeHTTP responseRecorder.new r).Code = c ∧
      Header.Get
        ((CacheControlMiddleware d (statusHandler c)).ServeHTTP responseRecorder.new r).sentHeader
        "Cache-Control" = cacheControlSpec d c) ∧
    (∀ d c : Int,
      (cacheControlSpec d c = "public, max-age=" ++ toString d ↔
        (0 < d ∧ ((200 ≤ c ∧ c < 300) ∨ c = 304))) ∧
      (cacheControlSpec d c = "no-cache, no-store, must-revalidate" ↔
        ¬ (0 < d ∧ ((200 ≤ c ∧ c < 300) ∨ c = 304)))) ∧
    (CacheControlMiddleware 300 (statusHandler 200)).ServeHTTP responseRecorder.new ⟨[]⟩ =
      { header := [("Cache-Control", "public, max-age=300")], wroteHeader := true,
        Code := 200, sentHeader := [("Cache-Control", "public, max-age=300")], Body := [] } ∧
    (CacheControlMiddleware 300 (statusHandler 304)).ServeHTTP responseRecorder.new ⟨[]⟩ =
      { header := [("Cache-Control", "public, max-age=300")], wroteHeader := true,
        Code := 304, sentHeader := [("Cache-Control", "public, max-age=300")], Body := [] } ∧
    (CacheControlMiddleware 300 (statusHandler 404)).ServeHTTP responseRecorder.new ⟨[]⟩ =
      { header := [("Cache-Control", "no-cache, no-store, must-revalidate")],
        wroteHeader := true, Code := 404,
        sentHeader := [("Cache-Control", "no-cache, no-store, must-revalidate")],
        Body := [] } ∧
    (CacheControlMiddleware 0 (bodyHandler [104, 105])).ServeHTTP responseRecorder.new ⟨[]⟩ =
      { header := [("Cache-Control", "no-cache, no-store, must-revalidate")],
        wroteHeader := true, Code := 200,
        sentHeader := [("Cache-Control", "no-cache, no-store, must-revalidate")],
        Body := [104, 105] } := by
  refine ⟨?_, ?_, ?_, ?_, ?_, ?_, by decide, by decide, by decide, by decide⟩
  · intro W _ d c w
    exact cacheControlWriter.WriteHeader_fresh d c w
  · intro W _ d b w
    exact cacheControlWriter.Write_fresh d b w
  · intro W _ d c w r
    show (cacheControlWriter.WriteHeader _ c).ResponseWriter = _
    rw [cacheControlWriter.WriteHeader_fresh]
  · intro W _ d b w r
    show (cacheControlWriter.Write _ b).ResponseWriter = _
    rw [cacheControlWriter.Write_fresh]
  · intro d c r
    have h : (CacheControlMiddleware d (statusHandler c)).ServeHTTP responseRecorder.new r =
        responseRecorder.WriteHeader
          { responseRecorder.new with
            header := Header.Set responseRecorder.new.header "Cache-Control"
              (cacheControlSpec d c) } c := by
      show (cacheControlWriter.WriteHeader _ c).ResponseWriter = _
      rw [cacheControlWriter.WriteHeader_fresh]
      rfl
    rw [h]
    exact ⟨rfl, Header.Get_Set _ _ _⟩
  · intro d c
    unfold cacheControlSpec
    by_cases h : 0 < d ∧ ((200 ≤ c ∧ c < 300) ∨ c = 304)
    · rw [if_pos h]
      exact ⟨⟨fun _ => h, fun _ => rfl⟩,
        ⟨fun e => absurd e (public_ne_noStore d), fun e => absurd h e⟩⟩
    · rw [if_neg h]
      exact ⟨⟨fun e => absurd e.symm (public_ne_noStore d), fun e => absurd e h⟩,
        ⟨fun _ => h, fun _ => rfl⟩⟩

theorem cacheControlWriter.call_written {W : Type} [restapi.ResponseWriter W]
    (u : W) (hv : String) (c : writerCall) :
    restapi.ResponseWriter.call
        ({ ResponseWriter := u, headerValue := hv, headerWritten := true } :
          cacheControlWriter W) c =
      { ResponseWriter := restapi.ResponseWriter.call u c, headerValue := hv,
        headerWritten := true } := by
  cases c with
  | WriteHeader code => rfl
  | Write b => rfl

theorem cacheControlWriter.calls_written {W : Type} [restapi.ResponseWriter W]
    (u : W) (hv : String) (cs : List writerCall) :
    restapi.ResponseWriter.calls
        ({ ResponseWriter := u, headerValue := hv, headerWritten := true } :
          cacheControlWriter W) cs =
      { ResponseWriter := restapi.ResponseWriter.calls u cs, headerValue := hv,
        headerWritten := true } := by
  induction cs generalizing u with
  | nil => rfl
  | cons c cs ih =>
    show restapi.ResponseWriter.calls (restapi.ResponseWriter.call _ c) cs = _
    rw [cacheControlWriter.call_written, ih]
    rfl

/-- The first call on a fresh wrapper sets Cache-Control once, to the value
of the specification for the status it decides, and forwards the call. -/
theorem cacheControlWriter.call_fresh {W : Type} [restapi.ResponseWriter W]
    (d : Int) (w : W) (c : writerCall) :
    restapi.ResponseWriter.call
        ({ ResponseWriter := w, headerValue := cacheHeaderValue d, headerWritten := false } :
          cacheControlWriter W) c =
      { ResponseWriter :=
          match c with
          | writerCall.WriteHeader code =>
            restapi.ResponseWriter.WriteHeader
              (restapi.ResponseWriter.HeaderSet w "Cache-Control" (cacheControlSpec d code))
              code
          | writerCall.Write b =>
            restapi.ResponseWriter.Write
              (restapi.ResponseWriter.WriteHeader
                (restapi.ResponseWriter.HeaderSet w "Cache-Control" (cacheControlSpec d 200))
                200) b
        headerValue := cacheHeaderValue d
        headerWritten := true } := by
  cases c with
  | WriteHeader code => exact cacheControlWriter.WriteHeader_fresh d code w
  | Write b => exact cacheControlWriter.Write_fresh d b w

theorem responseRecorder.call_header (u : responseRecorder) (c : writerCall) :
    (restapi.ResponseWriter.call u c).header = u.header := by
  cases c with
  | WriteHeader code =>
    show (responseRecorder.WriteHeader u code).header = _
    unfold responseRecorder.WriteHeader
    split <;> rfl
  | Write b =>
    show (responseRecorder.Write u b).header = _
    unfold responseRecorder.Write responseRecorder.WriteHeader
    by_cases h : u.wroteHeader = true
    · simp [h]
    · simp [h]

theorem responseRecorder.calls_header (u : responseRecorder) (cs : List writerCall) :
    (restapi.ResponseWriter.calls u cs).header = u.header := by
  induction cs generalizing u with
  | nil => rfl
  | cons c cs ih =>
    show (restapi.ResponseWriter.calls (restapi.ResponseWriter.call u c) cs).header = _
    rw [ih, responseRecorder.call_header]

theorem responseRecorder.call_sent (u : responseRecorder) (h : u.wroteHeader = true)
    (c : writerCall) :
    (restapi.ResponseWriter.call u c).wroteHeader = true ∧
    (restapi.ResponseWriter.call u c).sentHeader = u.sentHeader ∧
    (restapi.ResponseWriter.call u c).Code = u.Code := by
  cases c with
  | WriteHeader code =>
    show (responseRecorder.WriteHeader u code).wroteHeader = true ∧
      (responseRecorder.WriteHeader u code).sentHeader = _ ∧
      (responseRecorder.WriteHeader u code).Code = _
    unfold responseRecorder.WriteHeader
    simp [h]
  | Write b =>
    show (responseRecorder.Write u b).wroteHeader = true ∧
      (responseRecorder.Write u b).sentHeader = _ ∧ (responseRecorder.Write u b).Code = _
    unfold responseRecorder.Write
    simp [h]

theorem responseRecorder.calls_sent (u : responseRecorder) (h : u.wroteHeader = true)
    (cs : List writerCall) :
    (restapi.ResponseWriter.calls u cs).sentHeader = u.sentHeader ∧
    (restapi.ResponseWriter.calls u cs).Code = u.Code := by
  induction cs generalizing u with
  | nil => exact ⟨rfl, rfl⟩
  | cons c cs ih =>
    obtain ⟨h1, h2, h3⟩ := responseRecorder.call_sent u h c
    have := ih (restapi.ResponseWriter.call u c) h1
    show (restapi.ResponseWriter.calls (restapi.ResponseWriter.call u c) cs).sentHeader = _ ∧
      (restapi.ResponseWriter.calls (restapi.ResponseWriter.call u c) cs).Code = _
    rw [this.1, this.2, h2, h3]
    exact ⟨rfl, rfl⟩
/-- The underlying writer after the first call `c` on a fresh wrapper for
duration `d`: Cache-Control set to the specified value, then the call. -/
theorem cacheControlWriter.calls_fresh {W : Type} [restapi.ResponseWriter W]
    (d : Int) (w : W) (c : writerCall) (cs : List writerCall) :
    restapi.ResponseWriter.calls
        ({ ResponseWriter := w, headerValue := cacheHeaderValue d, headerWritten := false } :
          cacheControlWriter W) (c :: cs) =
      { ResponseWriter :=
          restapi.ResponseWriter.calls
            (match c with
              | writerCall.WriteHeader code =>
                restapi.ResponseWriter.WriteHeader
                  (restapi.ResponseWriter.HeaderSet w "Cache-Control"
                    (cacheControlSpec d code)) code
              | writerCall.Write b =>
                restapi.ResponseWriter.Write
                  (restapi.ResponseWriter.WriteHeader
                    (restapi.ResponseWriter.HeaderSet w "Cache-Control"
                      (cacheControlSpec d 200)) 200) b) cs
        headerValue := cacheHeaderValue d
        headerWritten := true } := by
  show restapi.ResponseWriter.calls (restapi.ResponseWriter.call _ c) cs = _
  rw [cacheControlWriter.call_fresh, cacheControlWriter.calls_written]

theorem responseRecorder.first_call (d : Int) (h0 : Header) (c : writerCall) :
    (match c with
      | writerCall.WriteHeader code =>
        restapi.ResponseWriter.WriteHeader
          (restapi.ResponseWriter.HeaderSet
            ({ header := h0, wroteHeader := false, Code := 0, sentHeader := [], Body := [] } :
              responseRecorder) "Cache-Control" (cacheControlSpec d code)) code
      | writerCall.Write b =>
        restapi.ResponseWriter.Write
          (restapi.ResponseWriter.WriteHeader
            (restapi.ResponseWriter.HeaderSet
              ({ header := h0, wroteHeader := false, Code := 0, sentHeader := [], Body := [] } :
                responseRecorder) "Cache-Control" (cacheControlSpec d 200)) 200) b) =
      { header := Header.Set h0 "Cache-Control" (cacheControlSpec d c.status)
        wroteHeader := true
        Code := c.status
        sentHeader := Header.Set h0 "Cache-Control" (cacheControlSpec d c.status)
        Body := match c with
          | writerCall.WriteHeader _ => []
          | writerCall.Write b => b } := by
  cases c with
  | WriteHeader code => rfl
  | Write b => rfl

/-- C11: on the writer of `CacheControlMiddleware d`, for every sequence of
`WriteHeader` and `Write` calls, Cache-Control is set once, by the first call,
to the value for the status that call decides (its code, or 200 for a body
write); the later calls only reach the underlying writer, so the value in the
header map and in the headers sent stays the one of the first call. -/
theorem C11_cache_control_decided_once :
    (∀ (W : Type) [ResponseWriter W] (d : Int) (w : W) (c : writerCall)
        (cs : List writerCall),
      ResponseWriter.calls
          ({ ResponseWriter := w, headerValue := cacheHeaderValue d,
             headerWritten := false } : cacheControlWriter W) (c :: cs) =
        { ResponseWriter :=
            ResponseWriter.calls
              (ResponseWriter.call
                (ResponseWriter.HeaderSet w "Cache-Control" (cacheControlSpec d c.status))
                (match c with
                  | writerCall.WriteHeader code => writerCall.WriteHeader code
                  | writerCall.Write _ => writerCall.WriteHeader 200))
              (match c with
                | writerCall.WriteHeader _ => cs
                | writerCall.Write b => writerCall.Write b :: cs)
          headerValue := cacheHeaderValue d
          headerWritten := true }) ∧
    (∀ (d : Int) (h0 : Header) (c : writerCall) (cs : List writerCall),
      Header.Get
        (ResponseWriter.calls
          ({ ResponseWriter :=
               { header := h0, wroteHeader := false, Code := 0, sentHeader := [], Body := [] }
             headerValue := cacheHeaderValue d
             headerWritten := false } : cacheControlWriter responseRecorder)
          (c :: cs)).ResponseWriter.header "Cache-Control" = cacheControlSpec d c.status ∧
      Header.Get
        (ResponseWriter.calls
          ({ ResponseWriter :=
               { header := h0, wroteHeader := false, Code := 0, sentHeader := [], Body := [] }
             headerValue := cacheHeaderValue d
             headerWritten := false } : cacheControlWriter responseRecorder)
          (c :: cs)).ResponseWriter.sentHeader "Cache-Control" = cacheControlSpec d c.status ∧
      (ResponseWriter.calls
          ({ ResponseWriter :=
               { header := h0, wroteHeader := false, Code := 0, sentHeader := [], Body := [] }
             headerValue := cacheHeaderValue d
             headerWritten := false } : cacheControlWriter responseRecorder)
          (c :: cs)).ResponseWriter.Code = c.status) ∧
    (ResponseWriter.calls
        ({ ResponseWriter := responseRecorder.new, headerValue := cacheHeaderValue 300,
           headerWritten := false } : cacheControlWriter responseRecorder)
        [writerCall.WriteHeader 200, writerCall.WriteHeader 500,
         writerCall.Write [104, 105]]).ResponseWriter =
      { header := [("Cache-Control", "public, max-age=300")], wroteHeader := true,
        Code := 200, sentHeader := [("Cache-Control", "public, max-age=300")],
        Body := [104, 105] } ∧
    (ResponseWriter.calls
        ({ ResponseWriter := responseRecorder.new, headerValue := cacheHeaderValue 300,
           headerWritten := false } : cacheControlWriter responseRecorder)
        [writerCall.Write [104], writerCall.WriteHeader 404,
         writerCall.Write [105]]).ResponseWriter =
      { header := [("Cache-Control", "public, max-age=300")], wroteHeader := true,
        Code := 200, sentHeader := [("Cache-Control", "public, max-age=300")],
        Body := [104, 105] } ∧
    (ResponseWriter.calls
        ({ ResponseWriter := responseRecorder.new, headerValue := cacheHeaderValue 300,
           headerWritten := false } : cacheControlWriter responseRecorder)
        [writerCall.WriteHeader 500, writerCall.WriteHeader 200,
         writerCall.Write [104]]).ResponseWriter =
      { header := [("Cache-Control", "no-cache, no-store, must-revalidate")],
        wroteHeader := true, Code := 500,
        sentHeader := [("Cache-Control", "no-cache, no-store, must-revalidate")],
        Body := [104] } := by
  refine ⟨?_, ?_, by decide, by decide, by decide⟩
  · intro W _ d w c cs
    rw [cacheControlWriter.calls_fresh]
    cases c with
    | WriteHeader code => rfl
    | Write b => rfl
  · intro d h0 c cs
    rw [cacheControlWriter.calls_fresh]
    simp only []
    rw [responseRecorder.first_call]
    refine ⟨?_, ?_, ?_⟩
    · rw [responseRecorder.calls_header]
      exact Header.Get_Set _ _ _
    · rw [(responseRecorder.calls_sent _ rfl cs).1]
      exact Header.Get_Set _ _ _
    · rw [(responseRecorder.calls_sent _ rfl cs).2]

theorem not_ifNoneMatchMatches_empty (e : String) (he : e ≠ "") :
    ¬ ifNoneMatchMatches "" e := by
  unfold ifNoneMatchMatches
  rintro (h | ⟨part, hp, ht⟩)
  · exact absurd h (by decide)
  · have hs : strings.Split "" ',' = [""] := by decide
    rw [hs, List.mem_singleton] at hp
    subst hp
    have : strings.TrimSpace "" = "" := by decide
    rw [this] at ht
    exact he ht.symm

theorem any_trimSpace_iff (inm e : String) :
    (strings.Split inm ',').any (fun part => strings.TrimSpace part == e) = true ↔
      ∃ part ∈ strings.Split inm ',', strings.TrimSpace part = e := by
  rw [List.any_eq_true]
  constructor
  · rintro ⟨p, hp, h⟩
    exact ⟨p, hp, by simpa using h⟩
  · rintro ⟨p, hp, h⟩
    exact ⟨p, hp, by simpa using h⟩

/-- With an empty current ETag the middleware is the inner handler. -/
theorem ETagMiddleware_empty {W : Type} [ResponseWriter W] (getETag : Unit → String)
    (next : Handler) (w : W) (r : Request) (he : getETag () = "") :
    (ETagMiddleware getETag next).ServeHTTP w r = next.ServeHTTP w r := by
  show (if getETag () ≠ "" then _ else next.ServeHTTP w r) = _
  rw [if_neg (by simp [he])]

/-- A request that matches the non-empty current ETag is answered 304 with
the ETag header set; the inner handler does not occur in the result. -/
theorem ETagMiddleware_match {W : Type} [ResponseWriter W] (getETag : Unit → String)
    (next : Handler) (w : W) (r : Request) (he : getETag () ≠ "")
    (hm : ifNoneMatchMatches (Header.Get r.Header "If-None-Match") (getETag ())) :
    (ETagMiddleware getETag next).ServeHTTP w r =
      ResponseWriter.WriteHeader (ResponseWriter.HeaderSet w "ETag" (getETag ())) 304 := by
  have hne : Header.Get r.Header "If-None-Match" ≠ "" := by
    intro h
    rw [h] at hm
    exact not_ifNoneMatchMatches_empty _ he hm
  show (if getETag () ≠ "" then
      (if Header.Get r.Header "If-None-Match" ≠ "" then
        (if Header.Get r.Header "If-None-Match" = "*" then _
          else if (strings.Split (Header.Get r.Header "If-None-Match") ',').any
              (fun part => strings.TrimSpace part == getETag ()) = true then _ else _)
        else _)
      else _) = _
  rw [if_pos he, if_pos hne]
  by_cases hs : Header.Get r.Header "If-None-Match" = "*"
  · rw [if_pos hs]
    rfl
  · rw [if_neg hs]
    have hany : (strings.Split (Header.Get r.Header "If-None-Match") ',').any
        (fun part => strings.TrimSpace part == getETag ()) = true := by
      rw [any_trimSpace_iff]
      rcases hm with hm | hm
      · exact absurd hm hs
      · exact hm
    rw [if_pos hany]
    rfl

/-- A request that does not match the non-empty current ETag reaches the
inner handler, once, on the writer with the ETag header set. -/
theorem ETagMiddleware_nomatch {W : Type} [ResponseWriter W] (getETag : Unit → String)
    (next : Handler) (w : W) (r : Request) (he : getETag () ≠ "")
    (hm : ¬ ifNoneMatchMatches (Header.Get r.Header "If-None-Match") (getETag ())) :
    (ETagMiddleware getETag next).ServeHTTP w r =
      next.ServeHTTP (ResponseWriter.HeaderSet w "ETag" (getETag ())) r := by
  show (if getETag () ≠ "" then
      (if Header.Get r.Header "If-None-Match" ≠ "" then
        (if Header.Get r.Header "If-None-Match" = "*" then _
          else if (strings.Split (Header.Get r.Header "If-None-Match") ',').any
              (fun part => strings.TrimSpace part == getETag ()) = true then _ else _)
        else _)
      else _) = _
  rw [if_pos he]
  by_cases hne : Header.Get r.Header "If-None-Match" ≠ ""
  · rw [if_pos hne]
    have hs : ¬ Header.Get r.Header "If-None-Match" = "*" := fun h => hm (Or.inl h)
    have hany : ¬ (strings.Split (Header.Get r.Header "If-None-Match") ',').any
        (fun part => strings.TrimSpace part == getETag ()) = true := by
      rw [any_trimSpace_iff]
      exact fun h => hm (Or.inr h)
    rw [if_neg hs, if_neg hany]
  · rw [if_neg hne]

theorem ETagMiddleware_probe (getETag : Unit → String) (r : Request)
    (he : getETag () ≠ "") :
    (ETagMiddleware getETag (bodyHandler [1])).ServeHTTP responseRecorder.new r =
      if ifNoneMatchMatches (Header.Get r.Header "If-None-Match") (getETag ()) then
        { header := [("ETag", getETag ())], wroteHeader := true, Code := 304,
          sentHeader := [("ETag", getETag ())], Body := [] }
      else
        { header := [("ETag", getETag ())], wroteHeader := true, Code := 200,
          sentHeader := [("ETag", getETag ())], Body := [1] } := by
  by_cases hm : ifNoneMatchMatches (Header.Get r.Header "If-None-Match") (getETag ())
  · rw [if_pos hm, ETagMiddleware_match getETag _ _ r he hm]
    rfl
  · rw [if_neg hm, ETagMiddleware_nomatch getETag _ _ r he hm]
    rfl

/-- C12: for a non-empty current ETag `e`, a request whose If-None-Match value
is exactly `*`, or has `e` among its comma-separated, trimmed entries, is
answered 304 with the ETag header set to `e` and without the inner handler;
every other request (one without the header included) gets the ETag header set
to `e` and goes to the inner handler, once, with no status written by the
middleware.  With an inner handler that writes one byte, the response from
a fresh writer has status 304 exactly for the matching requests and the
body holds one byte per run of the inner handler. -/
theorem C12_etag_conditional :
    (∀ (W : Type) [ResponseWriter W] (getETag : Unit → String) (next : Handler) (w : W)
        (r : Request), getETag () ≠ "" →
      (ifNoneMatchMatches (Header.Get r.Header "If-None-Match") (getETag ()) →
        (ETagMiddleware getETag next).ServeHTTP w r =
          ResponseWriter.WriteHeader
            (ResponseWriter.HeaderSet w "ETag" (getETag ())) 304) ∧
      (¬ ifNoneMatchMatches (Header.Get r.Header "If-None-Match") (getETag ()) →
        (ETagMiddleware getETag next).ServeHTTP w r =
          next.ServeHTTP (ResponseWriter.HeaderSet w "ETag" (getETag ())) r)) ∧
    (∀ (getETag : Unit → String) (r : Request), getETag () ≠ "" →
      (((ETagMiddleware getETag (bodyHandler [1])).ServeHTTP responseRecorder.new r).Code
          = 304 ↔
        ifNoneMatchMatches (Header.Get r.Header "If-None-Match") (getETag ())) ∧
      ((ETagMiddleware getETag (bodyHandler [1])).ServeHTTP responseRecorder.new r).Body.length
        = (if ifNoneMatchMatches (Header.Get r.Header "If-None-Match") (getETag ())
            then 0 else 1) ∧
      Header.Get
        ((ETagMiddleware getETag (bodyHandler [1])).ServeHTTP responseRecorder.new
          r).sentHeader "ETag" = getETag ()) ∧
    (ETagMiddleware (fun _ => "abc") (statusHandler 200)).ServeHTTP responseRecorder.new
        (conditionalRequest "*") =
      { header := [("ETag", "abc")], wroteHeader := true, Code := 304,
        sentHeader := [("ETag", "abc")], Body := [] } ∧
    (ETagMiddleware (fun _ => "abc") (statusHandler 200)).ServeHTTP responseRecorder.new
        (conditionalRequest "x, abc ,y") =
      { header := [("ETag", "abc")], wroteHeader := true, Code := 304,
        sentHeader := [("ETag", "abc")], Body := [] } ∧
    (ETagMiddleware (fun _ => "abc") (statusHandler 200)).ServeHTTP responseRecorder.new
        (conditionalRequest "x,abcd") =
      { header := [("ETag", "abc")], wroteHeader := true, Code := 200,
        sentHeader := [("ETag", "abc")], Body := [] } ∧
    (ETagMiddleware (fun _ => "abc") (statusHandler 200)).ServeHTTP responseRecorder.new
        { Header := [] } =
      { header := [("ETag", "abc")], wroteHeader := true, Code := 200,
        sentHeader := [("ETag", "abc")], Body := [] } := by
  refine ⟨?_, ?_, by decide, by decide, by decide, by decide⟩
  · intro W _ getETag next w r he
    exact ⟨fun hm => ETagMiddleware_match getETag next w r he hm,
      fun hm => ETagMiddleware_nomatch getETag next w r he hm⟩
  · intro getETag r he
    have e1 := ETagMiddleware_probe getETag r he
    by_cases hm : ifNoneMatchMatches (Header.Get r.Header "If-None-Match") (getETag ())
    · rw [if_pos hm] at e1
      rw [e1, if_pos hm]
      exact ⟨⟨fun _ => hm, fun _ => rfl⟩, rfl, Header.Get_Set [] "ETag" (getETag ())⟩
    · rw [if_neg hm] at e1
      rw [e1, if_neg hm]
      have h200 : ¬ ((200 : Int) = 304) := by decide
      exact ⟨⟨fun h => absurd h h200, fun h => absurd h hm⟩, rfl,
        Header.Get_Set [] "ETag" (getETag ())⟩

/-- Witness of `C12_etag_conditional`: ETag `abc` with the request header
`If-None-Match: x, abc ,y`, which matches, and with `If-None-Match: xyz`,
which does not. -/
theorem C12_etag_conditional_witness :
    (fun _ : Unit => "abc") () ≠ "" ∧
    ifNoneMatchMatches (Header.Get (conditionalRequest "x, abc ,y").Header "If-None-Match")
      ((fun _ : Unit => "abc") ()) ∧
    (ETagMiddleware (fun _ => "abc") (statusHandler 200)).ServeHTTP responseRecorder.new
        (conditionalRequest "x, abc ,y") =
      ResponseWriter.WriteHeader
        (ResponseWriter.HeaderSet responseRecorder.new "ETag" ((fun _ : Unit => "abc") ()))
        304 ∧
    ¬ ifNoneMatchMatches (Header.Get (conditionalRequest "xyz").Header "If-None-Match")
      ((fun _ : Unit => "abc") ()) ∧
    (ETagMiddleware (fun _ => "abc") (statusHandler 200)).ServeHTTP responseRecorder.new
        (conditionalRequest "xyz") =
      (statusHandler 200).ServeHTTP
        (ResponseWriter.HeaderSet responseRecorder.new "ETag" ((fun _ : Unit => "abc") ()))
        (conditionalRequest "xyz") :=
  ⟨by decide, by decide,
    (C12_etag_conditional.1 responseRecorder (fun _ => "abc") (statusHandler 200)
      responseRecorder.new (conditionalRequest "x, abc ,y") (by decide)).1 (by decide),
    by decide,
    (C12_etag_conditional.1 responseRecorder (fun _ => "abc") (statusHandler 200)
      responseRecorder.new (conditionalRequest "xyz") (by decide)).2 (by decide)⟩

/-- C13: with an empty current ETag the middleware goes straight to the inner
handler for every request: the response is the inner handler's, on the writer
as it was given, so no 304 and no ETag header come from the middleware; a
request with `If-None-Match: *` is shown on a fresh writer. -/
theorem C13_empty_etag_skips :
    (∀ (W : Type) [ResponseWriter W] (getETag : Unit → String) (next : Handler) (w : W)
        (r : Request), getETag () = "" →
      (ETagMiddleware getETag next).ServeHTTP w r = next.ServeHTTP w r) ∧
    (ETagMiddleware (fun _ => "") (bodyHandler [1])).ServeHTTP responseRecorder.new
        (conditionalRequest "*") =
      { header := [], wroteHeader := true, Code := 200, sentHeader := [], Body := [1] } ∧
    (ETagMiddleware (fun _ => "") (statusHandler 200)).ServeHTTP responseRecorder.new
        (conditionalRequest "") =
      { header := [], wroteHeader := true, Code := 200, sentHeader := [], Body := [] } := by
  refine ⟨?_, by decide, by decide⟩
  intro W _ getETag next w r he
  exact ETagMiddleware_empty getETag next w r he

/-- Witness of `C13_empty_etag_skips`: empty ETag and `If-None-Match: *`. -/
theorem C13_empty_etag_skips_witness :
    (fun _ : Unit => "") () = "" ∧
    (ETagMiddleware (fun _ => "") (statusHandler 200)).ServeHTTP responseRecorder.new
        (conditionalRequest "*") =
      (statusHandler 200).ServeHTTP responseRecorder.new (conditionalRequest "*") :=
  ⟨rfl, C13_empty_etag_skips.1 responseRecorder (fun _ => "") (statusHandler 200)
    responseRecorder.new (conditionalRequest "*") rfl⟩

theorem splitChars_of_not_mem (sep : Char) (l : List Char) (h : sep ∉ l) :
    strings.splitChars sep l = [l] := by
  induction l with
  | nil => rfl
  | cons c cs ih =>
    have hc : c ≠ sep := fun e => h (by rw [e]; exact List.mem_cons_self _ _)
    have hcs : sep ∉ cs := fun e => h (List.mem_cons_of_mem _ e)
    unfold strings.splitChars
    rw [if_neg hc, ih hcs]

theorem splitChars_parts (sep : Char) (l : List Char) :
    ∀ p ∈ strings.splitChars sep l, sep ∉ p := by
  induction l with
  | nil =>
    intro p hp
    simp only [strings.splitChars, List.mem_singleton] at hp
    subst hp
    exact List.not_mem_nil _
  | cons c cs ih =>
    intro p hp
    unfold strings.splitChars at hp
    by_cases hc : c = sep
    · rw [if_pos hc, List.mem_cons] at hp
      rcases hp with hp | hp
      · subst hp
        exact List.not_mem_nil _
      · exact ih p hp
    · rw [if_neg hc] at hp
      cases hs : strings.splitChars sep cs with
      | nil =>
        rw [hs] at hp
        simp only [List.mem_singleton] at hp
        subst hp
        simp only [List.mem_singleton]
        exact fun e => hc e.symm
      | cons q qs =>
        rw [hs] at hp ih
        simp only [List.mem_cons] at hp
        rcases hp with hp | hp
        · subst hp
          intro hmem
          rw [List.mem_cons] at hmem
          rcases hmem with e | e
          · exact hc e.symm
          · exact ih q (List.mem_cons_self _ _) e
        · exact ih p (List.mem_cons_of_mem _ hp)

theorem Split_of_no_sep (s : String) (h : ',' ∉ s.data) : strings.Split s ',' = [s] := by
  unfold strings.Split
  rw [splitChars_of_not_mem _ _ h]
  rfl

theorem TrimSpace_subset (s : String) : ∀ c ∈ (strings.TrimSpace s).data, c ∈ s.data := by
  intro c hc
  unfold strings.TrimSpace at hc
  simp only [List.mem_reverse] at hc
  have h1 := (List.dropWhile_sublist unicode.IsSpace).subset hc
  rw [List.mem_reverse] at h1
  exact (List.dropWhile_sublist unicode.IsSpace).subset h1

/-- A request whose If-None-Match value is the ETag itself matches exactly
when the ETag is `*`, or has no comma and no leading or trailing white space. -/
theorem ifNoneMatchMatches_self (e : String) :
    ifNoneMatchMatches e e ↔ (e = "*" ∨ (',' ∉ e.data ∧ strings.TrimSpace e = e)) := by
  unfold ifNoneMatchMatches
  constructor
  · rintro (h | ⟨part, hp, ht⟩)
    · exact Or.inl h
    · right
      have hcomma : ',' ∉ e.data := by
        unfold strings.Split at hp
        rw [List.mem_map] at hp
        obtain ⟨l, hl, rfl⟩ := hp
        have hl' := splitChars_parts ',' e.data l hl
        intro hmem
        rw [← ht] at hmem
        exact hl' (TrimSpace_subset _ _ hmem)
      refine ⟨hcomma, ?_⟩
      rw [Split_of_no_sep e hcomma, List.mem_singleton] at hp
      rw [hp] at ht
      exact ht
  · rintro (h | ⟨hc, ht⟩)
    · exact Or.inl h
    · right
      exact ⟨e, by rw [Split_of_no_sep e hc]; exact List.mem_singleton_self _, ht⟩

theorem Header.Get_conditionalRequest (inm : String) :
    Header.Get (conditionalRequest inm).Header "If-None-Match" = inm := by
  simp [Header.Get, conditionalRequest, List.lookup]

theorem cacheControlSpec_304 (d : Int) : cacheControlSpec d 304 = cacheHeaderValue d := by
  unfold cacheControlSpec cacheHeaderValue
  by_cases h : 0 < d
  · rw [if_pos ⟨h, Or.inr rfl⟩, if_pos h]
  · rw [if_neg (fun e => h e.1), if_neg h]

/-- With `CacheControlMiddleware d` outside `ETagMiddleware`, a request that
matches the non-empty ETag is answered 304 with the ETag and, set after it,
the Cache-Control value of the duration. -/
theorem CacheControl_ETag_match {W : Type} [ResponseWriter W] (d : Int)
    (getETag : Unit → String) (next : Handler) (w : W) (r : Request) (he : getETag () ≠ "")
    (hm : ifNoneMatchMatches (Header.Get r.Header "If-None-Match") (getETag ())) :
    (CacheControlMiddleware d (ETagMiddleware getETag next)).ServeHTTP w r =
      ResponseWriter.WriteHeader
        (ResponseWriter.HeaderSet (ResponseWriter.HeaderSet w "ETag" (getETag ()))
          "Cache-Control" (cacheHeaderValue d)) 304 := by
  show ((ETagMiddleware getETag next).ServeHTTP
    ({ ResponseWriter := w, headerValue := cacheHeaderValue d, headerWritten := false } :
      cacheControlWriter W) r).ResponseWriter = _
  rw [ETagMiddleware_match getETag next _ r he hm]
  show (cacheControlWriter.WriteHeader
    { ResponseWriter := ResponseWriter.HeaderSet w "ETag" (getETag ()),
      headerValue := cacheHeaderValue d, headerWritten := false } 304).ResponseWriter = _
  rw [cacheControlWriter.WriteHeader_fresh, cacheControlSpec_304]

/-- The two orders of composition on a request that does not reach the 304
branch: both are one run of the inner handler on the Cache-Control writer
around the underlying writer `u`. -/
theorem compose_pass {W : Type} [ResponseWriter W] (d : Int) (h : Handler) (u : W)
    (r : Request) :
    (CacheControlMiddleware d h).ServeHTTP u r =
      (h.ServeHTTP
        ({ ResponseWriter := u, headerValue := cacheHeaderValue d, headerWritten := false } :
          cacheControlWriter W) r).ResponseWriter := rfl

/-- C14 (counterexample): with the current ETag `a,b` a request whose
If-None-Match value is exactly `a,b` is not answered 304: the inner handler runs
and the status is 200; the same happens for the ETag ` abc` with a leading
blank. -/
theorem C14_exact_value_not_matched_counterexample :
    (ETagMiddleware (fun _ => "a,b") (bodyHandler [1])).ServeHTTP responseRecorder.new
        (conditionalRequest "a,b") =
      { header := [("ETag", "a,b")], wroteHeader := true, Code := 200,
        sentHeader := [("ETag", "a,b")], Body := [1] } ∧
    (ETagMiddleware (fun _ => " abc") (bodyHandler [1])).ServeHTTP responseRecorder.new
        (conditionalRequest " abc") =
      { header := [("ETag", " abc")], wroteHeader := true, Code := 200,
        sentHeader := [("ETag", " abc")], Body := [1] } ∧
    ¬ ifNoneMatchMatches "a,b" "a,b" ∧ ¬ ifNoneMatchMatches " abc" " abc" := by
  decide

/-- C14 (amended): for every non-empty current ETag `e` that is `*`, or has no
comma and no leading or trailing white space, a request whose If-None-Match
value is exactly `e` gets status 304 with the ETag header `e`, an empty body,
and the inner handler is not run; these are the only ETags for which the exact
value matches.  The ETag `abc`, bare and in double quotes, is shown. -/
theorem C14_matched_request_304 :
    (∀ (W : Type) [ResponseWriter W] (getETag : Unit → String) (next : Handler) (w : W)
        (r : Request), getETag () ≠ "" →
      Header.Get r.Header "If-None-Match" = getETag () →
      (getETag () = "*" ∨
        (',' ∉ (getETag ()).data ∧ strings.TrimSpace (getETag ()) = getETag ())) →
      (ETagMiddleware getETag next).ServeHTTP w r =
        ResponseWriter.WriteHeader (ResponseWriter.HeaderSet w "ETag" (getETag ())) 304) ∧
    (∀ (getETag : Unit → String) (next : Handler), getETag () ≠ "" →
      (getETag () = "*" ∨
        (',' ∉ (getETag ()).data ∧ strings.TrimSpace (getETag ()) = getETag ())) →
      (ETagMiddleware getETag next).ServeHTTP responseRecorder.new
          (conditionalRequest (getETag ())) =
        { header := [("ETag", getETag ())], wroteHeader := true, Code := 304,
          sentHeader := [("ETag", getETag ())], Body := [] }) ∧
    (∀ e : String, ifNoneMatchMatches e e ↔
      (e = "*" ∨ (',' ∉ e.data ∧ strings.TrimSpace e = e))) ∧
    (ETagMiddleware (fun _ => "abc") (bodyHandler [1])).ServeHTTP responseRecorder.new
        (conditionalRequest "abc") =
      { header := [("ETag", "abc")], wroteHeader := true, Code := 304,
        sentHeader := [("ETag", "abc")], Body := [] } ∧
    (ETagMiddleware (fun _ => "\"abc\"") (bodyHandler [1])).ServeHTTP responseRecorder.new
        (conditionalRequest "\"abc\"") =
      { header := [("ETag", "\"abc\"")], wroteHeader := true, Code := 304,
        sentHeader := [("ETag", "\"abc\"")], Body := [] } := by
  refine ⟨?_, ?_, ifNoneMatchMatches_self, by decide, by decide⟩
  · intro W _ getETag next w r he hinm hok
    apply ETagMiddleware_match getETag next w r he
    rw [hinm]
    exact (ifNoneMatchMatches_self _).2 hok
  · intro getETag next he hok
    rw [ETagMiddleware_match getETag next _ _ he]
    · rfl
    · rw [Header.Get_conditionalRequest]
      exact (ifNoneMatchMatches_self _).2 hok

/-- Witness of `C14_matched_request_304`: ETag `abc`, If-None-Match `abc`. -/
theorem C14_matched_request_304_witness :
    (fun _ : Unit => "abc") () ≠ "" ∧
    Header.Get (conditionalRequest "abc").Header "If-None-Match" =
      (fun _ : Unit => "abc") () ∧
    ((fun _ : Unit => "abc") () = "*" ∨
      (',' ∉ ((fun _ : Unit => "abc") ()).data ∧
        strings.TrimSpace ((fun _ : Unit => "abc") ()) = (fun _ : Unit => "abc") ())) ∧
    (ETagMiddleware (fun _ => "abc") (statusHandler 200)).ServeHTTP responseRecorder.new
        (conditionalRequest "abc") =
      ResponseWriter.WriteHeader
        (ResponseWriter.HeaderSet responseRecorder.new "ETag" ((fun _ : Unit => "abc") ()))
        304 :=
  ⟨by decide, by decide, by decide,
    C14_matched_request_304.1 responseRecorder (fun _ => "abc") (statusHandler 200)
      responseRecorder.new (conditionalRequest "abc") (by decide) (by decide) (by decide)⟩

/-- C15: with `CacheControlMiddleware d`, `d > 0`, around `ETagMiddleware`,
every request that matches the non-empty current ETag `e` is answered 304 with
both `ETag: e` and `Cache-Control: public, max-age=<d>`, and the inner handler
is not run. -/
theorem C15_cache_control_on_304 :
    (∀ (W : Type) [ResponseWriter W] (d : Int) (getETag : Unit → String) (next : Handler)
        (w : W) (r : Request), 0 < d → getETag () ≠ "" →
      ifNoneMatchMatches (Header.Get r.Header "If-None-Match") (getETag ()) →
      (CacheControlMiddleware d (ETagMiddleware getETag next)).ServeHTTP w r =
        ResponseWriter.WriteHeader
          (ResponseWriter.HeaderSet (ResponseWriter.HeaderSet w "ETag" (getETag ()))
            "Cache-Control" ("public, max-age=" ++ toString d)) 304) ∧
    (∀ (d : Int) (getETag : Unit → String) (next : Handler) (r : Request),
      0 < d → getETag () ≠ "" →
      ifNoneMatchMatches (Header.Get r.Header "If-None-Match") (getETag ()) →
      (CacheControlMiddleware d (ETagMiddleware getETag next)).ServeHTTP
          responseRecorder.new r =
        { header :=
            [("Cache-Control", "public, max-age=" ++ toString d), ("ETag", getETag ())]
          wroteHeader := true
          Code := 304
          sentHeader :=
            [("Cache-Control", "public, max-age=" ++ toString d), ("ETag", getETag ())]
          Body := [] }) ∧
    (CacheControlMiddleware 300 (ETagMiddleware (fun _ => "abc") (bodyHandler [1]))).ServeHTTP
        responseRecorder.new (conditionalRequest "*") =
      { header := [("Cache-Control", "public, max-age=300"), ("ETag", "abc")],
        wroteHeader := true, Code := 304,
        sentHeader := [("Cache-Control", "public, max-age=300"), ("ETag", "abc")],
        Body := [] } ∧
    (CacheControlMiddleware 300 (ETagMiddleware (fun _ => "abc") (bodyHandler [1]))).ServeHTTP
        responseRecorder.new (conditionalRequest "x, abc") =
      { header := [("Cache-Control", "public, max-age=300"), ("ETag", "abc")],
        wroteHeader := true, Code := 304,
        sentHeader := [("Cache-Control", "public, max-age=300"), ("ETag", "abc")],
        Body := [] } := by
  have hv : ∀ d : Int, 0 < d → cacheHeaderValue d = "public, max-age=" ++ toString d := by
    intro d hd
    unfold cacheHeaderValue
    rw [if_pos hd]
  refine ⟨?_, ?_, by decide, by decide⟩
  · intro W _ d getETag next w r hd he hm
    rw [CacheControl_ETag_match d getETag next w r he hm, hv d hd]
  · intro d getETag next r hd he hm
    rw [CacheControl_ETag_match d getETag next _ r he hm, hv d hd]
    show responseRecorder.WriteHeader _ 304 = _
    unfold responseRecorder.WriteHeader
    simp [ResponseWriter.HeaderSet, Header.Set, responseRecorder.new]

/-- Witness of `C15_cache_control_on_304`: duration 300, ETag `abc`, request
`If-None-Match: abc`. -/
theorem C15_cache_control_on_304_witness :
    (0 : Int) < 300 ∧ (fun _ : Unit => "abc") () ≠ "" ∧
    ifNoneMatchMatches (Header.Get (conditionalRequest "abc").Header "If-None-Match")
      ((fun _ : Unit => "abc") ()) ∧
    (CacheControlMiddleware 300 (ETagMiddleware (fun _ => "abc") (statusHandler 200))).ServeHTTP
        responseRecorder.new (conditionalRequest "abc") =
      ResponseWriter.WriteHeader
        (ResponseWriter.HeaderSet
          (ResponseWriter.HeaderSet responseRecorder.new "ETag" ((fun _ : Unit => "abc") ()))
          "Cache-Control" ("public, max-age=" ++ toString (300 : Int))) 304 :=
  ⟨by decide, by decide, by decide,
    C15_cache_control_on_304.1 responseRecorder 300 (fun _ => "abc") (statusHandler 200)
      responseRecorder.new (conditionalRequest "abc") (by decide) (by decide) (by decide)⟩

/-- C18 (counterexample): duration 300, current ETag `abc`, request
`If-None-Match: abc`.  With the Cache-Control behaviour outside, the 304
carries `Cache-Control: public, max-age=300`; with the ETag behaviour
outside, the 304 is written before the Cache-Control writer exists and
carries no Cache-Control header. -/
theorem C18_order_matters_counterexample :
    (CacheControlMiddleware 300 (ETagMiddleware (fun _ => "abc") (bodyHandler [1]))).ServeHTTP
        responseRecorder.new (conditionalRequest "abc") =
      { header := [("Cache-Control", "public, max-age=300"), ("ETag", "abc")],
        wroteHeader := true, Code := 304,
        sentHeader := [("Cache-Control", "public, max-age=300"), ("ETag", "abc")],
        Body := [] } ∧
    (ETagMiddleware (fun _ => "abc") (CacheControlMiddleware 300 (bodyHandler [1]))).ServeHTTP
        responseRecorder.new (conditionalRequest "abc") =
      { header := [("ETag", "abc")], wroteHeader := true, Code := 304,
        sentHeader := [("ETag", "abc")], Body := [] } ∧
    Header.Get
      ((CacheControlMiddleware 300
        (ETagMiddleware (fun _ => "abc") (bodyHandler [1]))).ServeHTTP
        responseRecorder.new (conditionalRequest "abc")).sentHeader "Cache-Control" ≠
    Header.Get
      ((ETagMiddleware (fun _ => "abc")
        (CacheControlMiddleware 300 (bodyHandler [1]))).ServeHTTP
        responseRecorder.new (conditionalRequest "abc")).sentHeader "Cache-Control" := by
  decide

/-- C18 (amended): for every duration, current ETag, request and inner handler
`h`: when the current ETag is empty or the request does not match it, the two
orders of composition give the same response, each by one run of `h` on the
same Cache-Control writer; when the request matches the non-empty ETag, both
orders answer 304 with the same ETag header and without running `h`, and only
the order with the Cache-Control behaviour outside sets Cache-Control. -/
theorem C18_composition_orders :
    (∀ (W : Type) [ResponseWriter W] (d : Int) (getETag : Unit → String) (h : Handler)
        (w : W) (r : Request), getETag () = "" →
      (CacheControlMiddleware d (ETagMiddleware getETag h)).ServeHTTP w r =
        (h.ServeHTTP
          ({ ResponseWriter := w, headerValue := cacheHeaderValue d,
             headerWritten := false } : cacheControlWriter W) r).ResponseWriter ∧
      (ETagMiddleware getETag (CacheControlMiddleware d h)).ServeHTTP w r =
        (h.ServeHTTP
          ({ ResponseWriter := w, headerValue := cacheHeaderValue d,
             headerWritten := false } : cacheControlWriter W) r).ResponseWriter) ∧
    (∀ (W : Type) [ResponseWriter W] (d : Int) (getETag : Unit → String) (h : Handler)
        (w : W) (r : Request), getETag () ≠ "" →
      ¬ ifNoneMatchMatches (Header.Get r.Header "If-None-Match") (getETag ()) →
      (CacheControlMiddleware d (ETagMiddleware getETag h)).ServeHTTP w r =
        (h.ServeHTTP
          ({ ResponseWriter := ResponseWriter.HeaderSet w "ETag" (getETag ()),
             headerValue := cacheHeaderValue d,
             headerWritten := false } : cacheControlWriter W) r).ResponseWriter ∧
      (ETagMiddleware getETag (CacheControlMiddleware d h)).ServeHTTP w r =
        (h.ServeHTTP
          ({ ResponseWriter := ResponseWriter.HeaderSet w "ETag" (getETag ()),
             headerValue := cacheHeaderValue d,
             headerWritten := false } : cacheControlWriter W) r).ResponseWriter) ∧
    (∀ (W : Type) [ResponseWriter W] (d : Int) (getETag : Unit → String) (h : Handler)
        (w : W) (r : Request), getETag () ≠ "" →
      ifNoneMatchMatches (Header.Get r.Header "If-None-Match") (getETag ()) →
      (CacheControlMiddleware d (ETagMiddleware getETag h)).ServeHTTP w r =
        ResponseWriter.WriteHeader
          (ResponseWriter.HeaderSet (ResponseWriter.HeaderSet w "ETag" (getETag ()))
            "Cache-Control" (cacheHeaderValue d)) 304 ∧
      (ETagMiddleware getETag (CacheControlMiddleware d h)).ServeHTTP w r =
        ResponseWriter.WriteHeader (ResponseWriter.HeaderSet w "ETag" (getETag ())) 304) := by
  refine ⟨?_, ?_, ?_⟩
  · intro W _ d getETag h w r he
    constructor
    · rw [compose_pass, ETagMiddleware_empty getETag h _ r he]
    · rw [ETagMiddleware_empty getETag _ w r he, compose_pass]
  · intro W _ d getETag h w r he hm
    constructor
    · rw [compose_pass, ETagMiddleware_nomatch getETag h _ r he hm]
      rfl
    · rw [ETagMiddleware_nomatch getETag _ w r he hm, compose_pass]
  · intro W _ d getETag h w r he hm
    exact ⟨CacheControl_ETag_match d getETag h w r he hm,
      ETagMiddleware_match getETag _ w r he hm⟩

/-- Witness of `C18_composition_orders`: duration 300, ETag `abc`, a request
with `If-None-Match: xyz`, which does not match, and an inner handler writing
status 200. -/
theorem C18_composition_orders_witness :
    (fun _ : Unit => "abc") () ≠ "" ∧
    ¬ ifNoneMatchMatches (Header.Get (conditionalRequest "xyz").Header "If-None-Match")
      ((fun _ : Unit => "abc") ()) ∧
    (CacheControlMiddleware 300 (ETagMiddleware (fun _ => "abc") (statusHandler 200))).ServeHTTP
        responseRecorder.new (conditionalRequest "xyz") =
      (ETagMiddleware (fun _ => "abc") (CacheControlMiddleware 300 (statusHandler 200))).ServeHTTP
        responseRecorder.new (conditionalRequest "xyz") ∧
    (CacheControlMiddleware 300 (ETagMiddleware (fun _ => "abc") (statusHandler 200))).ServeHTTP
        responseRecorder.new (conditionalRequest "xyz") =
      { header := [("Cache-Control", "public, max-age=300"), ("ETag", "abc")],
        wroteHeader := true, Code := 200,
        sentHeader := [("Cache-Control", "public, max-age=300"), ("ETag", "abc")],
        Body := [] } :=
  have w := C18_composition_orders.2.1 responseRecorder 300 (fun _ => "abc")
    (statusHandler 200) responseRecorder.new (conditionalRequest "xyz") (by decide) (by decide)
  ⟨by decide, by decide, w.1.trans w.2.symm, by decide⟩

end restapi

/-! ## Theorems: configuration, batch size and region bounds, continued -/

namespace gtfsdb

/-- C16: `NewConfig` returns a `Config` whose `DBPath`, `Env` and `verbose`
are the inputs unchanged, an empty `dbPath` included, and whose
`BulkInsertBatchSize` is the default 3000. -/
theorem C16_NewConfig_fields (dbPath : String) (env : Environment) (verbose : Bool) :
    (NewConfig dbPath env verbose).DBPath = dbPath ∧
    (NewConfig dbPath env verbose).Env = env ∧
    (NewConfig dbPath env verbose).verbose = verbose ∧
    (NewConfig dbPath env verbose).BulkInsertBatchSize = 3000 ∧
    NewConfig dbPath env verbose =
      { DBPath := dbPath, Env := env, verbose := verbose, BulkInsertBatchSize := 3000 } ∧
    (NewConfig "" env verbose).DBPath = "" ∧
    NewConfig "/path/to/database.db" Environment.Production true =
      { DBPath := "/path/to/database.db", Env := Environment.Production, verbose := true,
        BulkInsertBatchSize := 3000 } :=
  ⟨rfl, rfl, rfl, rfl, rfl, rfl, rfl⟩

/-- C19: the batch size is at least 1 exactly when `fieldsPerRow <= 32766`;
above 32766 it is 0; it is never negative. -/
theorem C19_SafeBatchSize_usable (c : Config) (f : Int) :
    (1 ≤ c.SafeBatchSize f ↔ f ≤ 32766) ∧
    (32766 < f → c.SafeBatchSize f = 0) ∧
    0 ≤ c.SafeBatchSize f := by
  by_cases h : 0 < f
  · rw [SafeBatchSize_pos c f h]
    refine ⟨?_, ?_, Int.ediv_nonneg (by decide) (le_of_lt h)⟩
    · rw [Int.le_ediv_iff_mul_le h]
      omega
    · intro hbig
      exact Int.ediv_eq_zero_of_lt (by decide) hbig
  · rw [SafeBatchSize_nonpos c f (by omega)]
    refine ⟨⟨fun _ => by omega, fun _ => by decide⟩, fun hbig => by omega, by decide⟩

/-- Witness of `C19_SafeBatchSize_usable` at `fieldsPerRow = 40000`. -/
theorem C19_SafeBatchSize_usable_witness :
    (32766 : Int) < 40000 ∧
    Config.SafeBatchSize (NewConfig "gtfs.db" Environment.Test true) 40000 = 0 ∧
    ¬ (1 ≤ Config.SafeBatchSize (NewConfig "gtfs.db" Environment.Test true) 40000) ∧
    1 ≤ Config.SafeBatchSize (NewConfig "gtfs.db" Environment.Test true) 32766 :=
  ⟨by decide,
    (C19_SafeBatchSize_usable (NewConfig "gtfs.db" Environment.Test true) 40000).2.1
      (by decide),
    fun h => absurd
      ((C19_SafeBatchSize_usable (NewConfig "gtfs.db" Environment.Test true) 40000).1.1 h)
      (by decide),
    (C19_SafeBatchSize_usable (NewConfig "gtfs.db" Environment.Test true) 32766).1.2
      (by decide)⟩

end gtfsdb

namespace gtfs

theorem allPoints_eq_nil (shapes : List Shape) (h : ∀ s ∈ shapes, s.Points = []) :
    allPoints shapes = [] := by
  induction shapes with
  | nil => rfl
  | cons s ss ih =>
    unfold allPoints at ih ⊢
    rw [List.flatMap_cons, h s (List.mem_cons_self _ _),
      ih (fun t ht => h t (List.mem_cons_of_mem _ ht))]
    rfl

/-- C20: with a non-empty shape list the stops do not influence the result:
any two stop lists give equal results; when every shape has no points the
result is present with center (0, 0) and both spans 0, also when stops with
coordinates exist. -/
theorem C20_stops_ignored_with_shapes :
    (∀ (shapes : List Shape) (stops stops' : List Stop), shapes ≠ [] →
      ComputeRegionBounds shapes stops = ComputeRegionBounds shapes stops') ∧
    (∀ (shapes : List Shape) (stops : List Stop), shapes ≠ [] →
      (∀ s ∈ shapes, s.Points = []) →
      ComputeRegionBounds shapes stops =
        some { Lat := F64.zero, Lon := F64.zero, LatSpan := F64.zero,
               LonSpan := F64.zero }) ∧
    ComputeRegionBounds [⟨"a", []⟩, ⟨"b", []⟩]
        [⟨"s", some (F64.ofInt 1), some (F64.ofInt 1)⟩,
         ⟨"t", some (F64.ofInt 3), some (F64.ofInt 3)⟩] =
      some { Lat := F64.zero, Lon := F64.zero, LatSpan := F64.zero, LonSpan := F64.zero } ∧
    ComputeRegionBounds []
        [⟨"s", some (F64.ofInt 1), some (F64.ofInt 1)⟩,
         ⟨"t", some (F64.ofInt 3), some (F64.ofInt 3)⟩] =
      some { Lat := F64.ofInt 2, Lon := F64.ofInt 2, LatSpan := F64.ofInt 2,
             LonSpan := F64.ofInt 2 } := by
  refine ⟨?_, ?_, by decide, by decide⟩
  · intro shapes stops stops' hs
    rw [ComputeRegionBounds_shapes shapes stops hs, ComputeRegionBounds_shapes shapes stops' hs]
  · intro shapes stops hs hp
    rw [ComputeRegionBounds_shapes shapes stops hs, allPoints_eq_nil shapes hp, boundsFrom_nil]

/-- Witness of `C20_stops_ignored_with_shapes`: one shape without points,
against no stops and against a stop at (1, 1). -/
theorem C20_stops_ignored_with_shapes_witness :
    ([⟨"a", []⟩] : List Shape) ≠ [] ∧
    (∀ s ∈ ([⟨"a", []⟩] : List Shape), s.Points = []) ∧
    ComputeRegionBounds [⟨"a", []⟩] [] =
      ComputeRegionBounds [⟨"a", []⟩] [⟨"s", some (F64.ofInt 1), some (F64.ofInt 1)⟩] ∧
    ComputeRegionBounds [⟨"a", []⟩] [⟨"s", some (F64.ofInt 1), some (F64.ofInt 1)⟩] =
      some { Lat := F64.zero, Lon := F64.zero, LatSpan := F64.zero, LonSpan := F64.zero } :=
  ⟨by decide, by decide,
    C20_stops_ignored_with_shapes.1 [⟨"a", []⟩] []
      [⟨"s", some (F64.ofInt 1), some (F64.ofInt 1)⟩] (by decide),
    C20_stops_ignored_with_shapes.2.1 [⟨"a", []⟩]
      [⟨"s", some (F64.ofInt 1), some (F64.ofInt 1)⟩] (by decide) (by decide)⟩

end gtfs
